import Mathlib

/-!
Verification development for the `python-icontact` client library
(`icontact/client.py`).

The development shallowly embeds the request-execution / retry /
authentication-recovery pipeline of `IContactClient`:

* `calc_signature` embeds `IContactClient.__calc_signature`,
* `do_request` embeds `IContactClient.__do_request`,
* `login` embeds `IContactClient.login`.

Python dictionaries are modelled as insertion-ordered association lists
with unique keys (`Dict`).  Mutable dictionary objects are modelled with a
small heap (`List Dict`, references are indices), so that the in-place
mutations performed by the source (`params.update(...)`,
`del params['api_sig']`, `del params['api_put']`) and the aliasing between
a recursive call's `parameters` argument and its caller's local `params`
object are represented faithfully.

Effects are made explicit:

* outgoing HTTP requests, back-off sleeps, and credential-store callbacks
  are recorded as `Event`s in the client state;
* HTTP responses are supplied by an environment stream
  `responses : Nat → Response` consumed at a cursor;
* Python exceptions become `Outcome` values
  (`ExcessiveRetriesException` ↦ `Outcome.excessiveRetries`,
  `ClientException` ↦ `Outcome.clientError`, other Python-level errors
  such as `ValueError` from `dict(<non-empty string>)` ↦
  `Outcome.pyError`);
* the recursion of `__do_request` is driven by a fuel parameter
  (`Outcome.outOfFuel` signals exhausted fuel, i.e. the prefix of an
  infinite run).

The MD5 hex digest used by the signature (an external library call, not
code of this repository) is modelled as an abstract function
`Config.md5hex`; every theorem about signatures holds for an arbitrary
such function.
-/

namespace IContact

/-! ### Python dictionaries as insertion-ordered association lists -/

/-- A Python `dict` with string keys and (stringified) values, as an
insertion-ordered association list with unique keys. -/
abbrev Dict := List (String × String)

/-- `k in d` — Python `dict.has_key`. -/
def dictHasKey (d : Dict) (k : String) : Bool :=
  d.any (fun kv => kv.1 == k)

/-- `d[k]` — lookup, `none` when the key is absent. -/
def dictGet (d : Dict) (k : String) : Option String :=
  (d.find? (fun kv => kv.1 == k)).map (·.2)

/-- `d[k] = v` / `d.update(k=v)` — replaces the value in place when the key
is present (keeping its insertion position), appends otherwise. -/
def dictSet (d : Dict) (k v : String) : Dict :=
  if dictHasKey d k then
    d.map (fun kv => if kv.1 == k then (k, v) else kv)
  else
    d ++ [(k, v)]

/-- `del d[k]`. -/
def dictDel (d : Dict) (k : String) : Dict :=
  d.filter (fun kv => kv.1 != k)

/-! ### Small string helpers used by the pipeline -/

/-- Character-list version of a "begins with" test. -/
def beginsWithL : List Char → List Char → Bool
  | [], _ => true
  | _ :: _, [] => false
  | a :: as, b :: bs => a == b && beginsWithL as bs

/-- Python `str.startswith`: does `s` start with `pre`? -/
def pyStartsWith (s pre : String) : Bool :=
  beginsWithL pre.data s.data

/-- Python truthiness of `self.token` (`if not self.token:`): `None` and
the empty string are falsy. -/
def pyFalsy : Option String → Bool
  | none => true
  | some t => t == ""

/-- Lexicographic order on character lists by code point: Python 2's
ordering of the (byte) strings used as parameter keys in `sorted(params)`. -/
def lexLe : List Char → List Char → Bool
  | [], _ => true
  | _ :: _, [] => false
  | a :: as, b :: bs => if a = b then lexLe as bs else decide (a.toNat < b.toNat)

/-- Python `<=` on strings, via their character lists. -/
def pyStrLe (a b : String) : Bool := lexLe a.data b.data

/-- The same comparison as a (decidable) relation, in the form
`List.insertionSort` expects. -/
abbrev pyStrLeP (a b : String) : Prop := pyStrLe a b = true

/-- Upper-case hexadecimal digit. -/
def hexUpper (n : Nat) : Char :=
  (['0', '1', '2', '3', '4', '5', '6', '7', '8', '9',
    'A', 'B', 'C', 'D', 'E', 'F'].getD n '0')

/-- Characters Python 2's `urllib` never quotes (`always_safe`):
ASCII letters, digits, `'_'`, `'.'`, `'-'`. -/
def alwaysSafe (c : Char) : Bool :=
  c.isAlpha || c.isDigit || c == '_' || c == '.' || c == '-'

/-- Python 2 `urllib.quote_plus` on a single character. -/
def quotePlusChar (c : Char) : String :=
  if alwaysSafe c then String.singleton c
  else if c == ' ' then "+"
  else "%" ++ String.mk [hexUpper (c.toNat / 16 % 16), hexUpper (c.toNat % 16)]

/-- Python 2 `urllib.quote_plus`. -/
def quotePlus (s : String) : String :=
  String.join (s.data.map quotePlusChar)

/-- Python 2 `urllib.urlencode` over our ordered dictionary model. -/
def pyUrlencode (d : Dict) : String :=
  String.intercalate "&" (d.map (fun kv => quotePlus kv.1 ++ "=" ++ quotePlus kv.2))

/-- Split a character list at every occurrence of a separator character
(the single-character case of Python's `str.split`). -/
def splitOnCharL (sep : Char) (cs : List Char) : List (List Char) :=
  cs.foldr
    (fun c acc =>
      match acc with
      | [] => [[]]
      | cur :: rest => if c = sep then [] :: cur :: rest else (c :: cur) :: rest)
    [[]]

/-- The `params` component produced by Python 2's `urlparse.urlparse`:
after stripping the fragment (after the first `'#'`) and the query (after
the first `'?'`), the part of the last `'/'`-separated segment that
follows its first `';'`. -/
def pyUrlparseParams (url : String) : String :=
  let cs := url.data
  let beforeFrag := (splitOnCharL '#' cs).headD cs
  let beforeQuery := (splitOnCharL '?' beforeFrag).headD beforeFrag
  let lastSeg := (splitOnCharL '/' beforeQuery).getLastD beforeQuery
  match splitOnCharL ';' lastSeg with
  | [] => ""
  | [_] => ""
  | _ :: rest => String.mk (List.intercalate [';'] rest)

/-! ### Core data model of the pipeline -/

/-- Client configuration fixed at construction
(`IContactClient.__init__`).  `md5hex` abstracts the external
`md5.new(...).hexdigest()` call. -/
structure Config where
  api_key : String
  shared_secret : String
  username : String
  md5_password : String
  max_retry_count : Nat
  md5hex : String → String

/-- `IContactClient.ICONTACT_API_URL`. -/
def apiUrlBase : String := "http://api.icontact.com/icp/core/api/v1.0/"

/-- The parsed XML document of a successful response, reduced to the
fields the pipeline itself reads: `auth/token` and `auth/seq` (consumed by
`login`), plus an opaque `tag` standing for the rest of the payload. -/
structure Doc where
  auth_token : String
  auth_seq : Int
  tag : Nat
deriving DecidableEq, Repr

/-- A parsed HTTP response as classified by `__do_request`
(`xml.get('status')`, `error_code`, `error_message`). -/
inductive Response where
  | ok (doc : Doc)
  | err (error_code : String) (error_message : String)
deriving DecidableEq, Repr

/-- Observable effects of a run: outgoing HTTP requests (with the query
parameter dictionary at dispatch time, and the `api_put` body for PUT),
back-off sleeps (`time.sleep(random.random() * m)` records the multiplier
`m`), and `auth_handler.set_credentials` callbacks. -/
inductive Event where
  | httpGet (call_path : String) (query : Dict)
  | httpPut (call_path : String) (query : Dict) (body : String)
  | sleepRand (multiplier : Nat)
  | setCreds (token : String) (seq : Int)
deriving DecidableEq, Repr

/-- How a call to the pipeline ends. -/
inductive Outcome where
  | ok (doc : Doc)
  | excessiveRetries (msg : String)
  | clientError (msg : String)
  | pyError (msg : String)
  | outOfFuel
deriving DecidableEq, Repr

/-- Mutable state of one `IContactClient` instance: the dictionary heap,
the credential fields `token`/`sequence`, the retry counter, the optional
external credential store's contents, the response-stream cursor, and the
event log. -/
structure ClientState where
  heap : List Dict
  token : Option String
  sequence : Int
  retry_count : Nat
  handler : Option (String × Int)
  cursor : Nat
  events : List Event
deriving DecidableEq, Repr

/-- The `parameters` argument of `__do_request`: a reference to a heap
dictionary, a raw string (what the variable `params` holds after the PUT
branch rebinds it to `urlparse`'s params component), or the default `{}`. -/
inductive ParamsArg where
  | ref (r : Nat)
  | raw (s : String)
  | empty
deriving DecidableEq, Repr

/-- `dict(parameters)` — builds the local copy: copies a referenced
dictionary, turns the empty string into `{}`, and fails (`ValueError`)
on a non-empty string. -/
def pyDict (parg : ParamsArg) (heap : List Dict) : Option Dict :=
  match parg with
  | ParamsArg.ref r => some (heap.getD r [])
  | ParamsArg.raw s => if s == "" then some [] else none
  | ParamsArg.empty => some []

/-- Read the dictionary a heap reference points to. -/
def heapGet (h : List Dict) (r : Nat) : Dict := h.getD r []

/-- Overwrite the dictionary a heap reference points to. -/
def hWrite (h : List Dict) (r : Nat) (d : Dict) : List Dict := h.set r d

/-! ### `IContactClient.__calc_signature` (client.py lines 104-127) -/

/-- Embeds `__calc_signature`.  Returns the signature together with the
dictionary after the in-place `del params['api_sig']` (line 121), since
that mutation is visible to the caller's `params` object.  The MD5 hex
digest is the abstract `cfg.md5hex`. -/
def calc_signature (cfg : Config) (call_path : String) (params : Dict) : String × Dict :=
  -- Lines 120-121: strip any pre-existing `api_sig`.
  let params := dictDel params "api_sig"
  -- Line 123: keys sorted alphabetically, each concatenated with its value.
  let keys := List.insertionSort pyStrLeP (params.map Prod.fst)
  let params_string := String.join (keys.map (fun k => k ++ ((dictGet params k).getD "")))
  -- Lines 124-125.
  let string_to_sign := cfg.shared_secret ++ call_path ++ params_string
  (cfg.md5hex string_to_sign, params)

/-- Line 160: `params.update(api_sig=self.__calc_signature(call_path, params))`
as a transformation of the `params` dictionary (the in-place deletion
inside `__calc_signature` happens first, then the signature is attached). -/
def signParams (cfg : Config) (call_path : String) (d : Dict) : Dict :=
  let r := calc_signature cfg call_path d
  dictSet r.2 "api_sig" r.1

/-! ### `IContactClient.__do_request` and `login` -/

/-- The "stale token" message recognised at line 203. -/
def staleAuthMessage : String := "Authorization problem.  Access not allowed."

/-- The call path built by `login` (line 277). -/
def loginPath (cfg : Config) : String :=
  "auth/login/" ++ cfg.username ++ "/" ++ cfg.md5_password

/-- Lines 280-288 of `login`: store the token and sequence from a
successful login response, notify the credential store when one is
configured, and return the pair. -/
def loginFinish (doc : Doc) (s : ClientState) : (Except Outcome (String × Int)) × ClientState :=
  -- Lines 280-281.
  let s := { s with token := some doc.auth_token, sequence := doc.auth_seq }
  -- Lines 285-286.
  let s := if s.handler.isSome then
      { s with handler := some (doc.auth_token, doc.auth_seq),
               events := s.events ++ [Event.setCreds doc.auth_token doc.auth_seq] }
    else s
  -- Line 288.
  (Except.ok (doc.auth_token, doc.auth_seq), s)

/-- The body of `login` (lines 262-288), parameterised by the
`__do_request` callback it invokes at line 277. -/
def loginVia (doReq : String → ParamsArg → ClientState → Outcome × ClientState)
    (cfg : Config) (s : ClientState) : (Except Outcome (String × Int)) × ClientState :=
  match doReq (loginPath cfg) ParamsArg.empty s with
  | (Outcome.ok doc, s') => loginFinish doc s'
  | (o, s') => (Except.error o, s')

/-- Lines 184-218 of `__do_request`: classify a parsed response.  The
recursive re-issues of lines 197 and 212 go through the callback `doReq`
(instantiated with `do_request` at the remaining fuel); `parg'` is what
the local variable `params` holds at that point. -/
def classify (doReq : String → ParamsArg → ClientState → Outcome × ClientState)
    (cfg : Config) (call_path : String) (parg' : ParamsArg) (resp : Response)
    (st : ClientState) : Outcome × ClientState :=
  match resp with
  | Response.ok doc =>
    -- Lines 216-218: success resets the retry counter.
    (Outcome.ok doc, { st with retry_count := 0 })
  | Response.err code msg =>
    if code == "503" then
      -- Lines 189-197: rate-limited — increment, sleep, re-issue.
      let st := { st with retry_count := st.retry_count + 1 }
      let st := { st with events := st.events ++ [Event.sleepRand st.retry_count] }
      doReq call_path parg' st
    else if code == "401" then
      if msg != staleAuthMessage then
        -- Lines 203-205: unrecoverable authentication failure.
        (Outcome.clientError
          ("Unrecoverable authentication error for " ++ call_path ++ ": "
            ++ code ++ " - " ++ msg), st)
      else
        -- Lines 207-212: stale token — sleep (with the *old* counter),
        -- increment, log in again, re-issue.
        let st := { st with events := st.events ++ [Event.sleepRand st.retry_count] }
        let st := { st with retry_count := st.retry_count + 1 }
        match loginVia doReq cfg st with
        | (Except.error o, s') => (o, s')
        | (Except.ok _, s') => doReq call_path parg' s'
    else
      -- Lines 213-215: any other error code is unrecoverable.
      (Outcome.clientError
        ("Unrecoverable error for " ++ call_path ++ ": " ++ code ++ " - " ++ msg), st)

/-- Lines 159-218 of `__do_request`: sign the parameter dictionary at
heap reference `p`, pull out the `api_put` body, dispatch the request
(consuming one response from the stream), and classify the response
(`classify`). -/
def sendAndClassify (doReq : String → ParamsArg → ClientState → Outcome × ClientState)
    (cfg : Config) (responses : Nat → Response) (call_path : String) (p : Nat)
    (st : ClientState) : Outcome × ClientState :=
  -- Line 160: sign the request and attach `api_sig`.
  let st := { st with heap := hWrite st.heap p (signParams cfg call_path (heapGet st.heap p)) }
  -- Lines 162-168: pull out the `api_put` body parameter.
  let api_put := dictGet (heapGet st.heap p) "api_put"
  let st := match api_put with
    | some _ => { st with heap := hWrite st.heap p (dictDel (heapGet st.heap p) "api_put") }
    | none => st
  -- Line 170: the request URL.
  let url := apiUrlBase ++ call_path ++ "?" ++ pyUrlencode (heapGet st.heap p)
  -- Lines 173-182: dispatch over HTTP, consuming one response.
  let resp := responses st.cursor
  let ev := match api_put with
    | some body => Event.httpPut call_path (heapGet st.heap p) body
    | none => Event.httpGet call_path (heapGet st.heap p)
  -- Line 176 rebinds the local variable `params` to the params component
  -- of `urlparse.urlparse(url)` in the PUT branch.
  let parg' := match api_put with
    | some _ => ParamsArg.raw (pyUrlparseParams url)
    | none => ParamsArg.ref p
  let st := { st with cursor := st.cursor + 1, events := st.events ++ [ev] }
  classify doReq cfg call_path parg' resp st

/-- Line 157: merge the held token and sequence into the dictionary. -/
def withCreds (tok : Option String) (seq : Int) (d : Dict) : Dict :=
  dictSet (dictSet d "api_tok" (tok.getD "")) "api_seq" (toString seq)

/-- The body of `IContactClient.__do_request` (lines 129-218), with the
recursive re-issues and the `self.login()` calls going through the
callback `doReq`. -/
def do_requestF (cfg : Config) (responses : Nat → Response)
    (doReq : String → ParamsArg → ClientState → Outcome × ClientState)
    (call_path : String) (parg : ParamsArg) (s : ClientState) : Outcome × ClientState :=
  -- Lines 140-142: retry-ceiling guard.
  if s.retry_count > cfg.max_retry_count then
    (Outcome.excessiveRetries
      ("Exceeded maximum retry count (" ++ toString cfg.max_retry_count ++ ")"), s)
  else
    -- Line 144: `params = dict(parameters)` — fails on a non-empty string.
    match pyDict parg s.heap with
    | none =>
      (Outcome.pyError "dictionary update sequence element #0 has length 1; 2 is required", s)
    | some d0 =>
      -- The fresh dictionary object, allocated at the end of the heap.
      let p := s.heap.length
      let s2 :=
        -- Line 147: `params.update(api_key=self.api_key)`.
        { s with heap := hWrite (s.heap ++ [d0]) p (dictSet d0 "api_key" cfg.api_key) }
      -- Lines 149-157: every non-login call needs the token and sequence.
      if pyStartsWith call_path "auth/login" then
        sendAndClassify doReq cfg responses call_path p s2
      else if pyFalsy s2.token then
        -- Lines 152-156: not logged in — log in implicitly.
        let s3 := { s2 with retry_count := s2.retry_count + 1 }
        match loginVia doReq cfg s3 with
        | (Except.error o, s') => (o, s')
        | (Except.ok _, s') =>
          -- Line 157: `params.update(api_tok=self.token, api_seq=self.sequence)`.
          let h4 := hWrite s'.heap p (withCreds s'.token s'.sequence (heapGet s'.heap p))
          sendAndClassify doReq cfg responses call_path p { s' with heap := h4 }
      else
        let h3 := hWrite s2.heap p (withCreds s2.token s2.sequence (heapGet s2.heap p))
        sendAndClassify doReq cfg responses call_path p { s2 with heap := h3 }

/-- Embeds `IContactClient.__do_request` (lines 129-218): `fuel` nested
applications of the body `do_requestF`, with exhausted fuel signalled by
`Outcome.outOfFuel` (marking the prefix of an infinite run).  Defined by
primitive recursion on the fuel so that concrete runs evaluate. -/
def do_request (cfg : Config) (responses : Nat → Response) (fuel : Nat) :
    String → ParamsArg → ClientState → Outcome × ClientState :=
  Nat.rec (motive := fun _ => String → ParamsArg → ClientState → Outcome × ClientState)
    (fun _ _ s => (Outcome.outOfFuel, s))
    (fun _ doReq => do_requestF cfg responses doReq)
    fuel

/-- Embeds `IContactClient.login` (lines 262-288): a `__do_request` on the
login path followed by `loginFinish`. -/
def login (cfg : Config) (responses : Nat → Response) (fuel : Nat) (s : ClientState) :
    (Except Outcome (String × Int)) × ClientState :=
  match fuel with
  | 0 => (Except.error Outcome.outOfFuel, s)
  | fuel + 1 => loginVia (fun cp pa s' => do_request cfg responses fuel cp pa s') cfg s

/-- The dictionary that actually goes out for a logged-in non-login call
whose caller supplied `d`: `api_key`, `api_tok`, `api_seq` merged in, then
the signature attached. -/
def requestDict (cfg : Config) (cp : String) (tok : Option String) (seq : Int) (d : Dict) : Dict :=
  signParams cfg cp (withCreds tok seq (dictSet d "api_key" cfg.api_key))

/-- Count of outgoing HTTP requests in an event log. -/
def httpCount (evs : List Event) : Nat :=
  evs.countP (fun e =>
    match e with
    | Event.httpGet _ _ => true
    | Event.httpPut _ _ _ => true
    | _ => false)

/-- Frame relation on heaps: the second heap is at least as long and
agrees with the first on every prefix of it — i.e. every dictionary
object that existed before still holds exactly its old entries. -/
def heapExtends (h h' : List Dict) : Prop :=
  h.length ≤ h'.length ∧ ∀ n, n ≤ h.length → h'.take n = h.take n

/-- A request-issuing function that never modifies pre-existing
dictionary objects (it may only allocate new ones and write those). -/
def heapPreserving (f : String → ParamsArg → ClientState → Outcome × ClientState) : Prop :=
  ∀ cp pa s, heapExtends s.heap (f cp pa s).2.heap

/-! ### Concrete scenario environments used by individual results -/

/-- A concrete configuration: retry ceiling `maxR`, the hash instantiated
with the identity function (its value never influences control flow). -/
def cfgDemo (maxR : Nat) : Config :=
  ⟨"KEY", "SECRET", "user", "pwhash", maxR, fun str => str⟩

/-- An environment that answers every request with the rate-limit error. -/
def stream503 : Nat → Response :=
  fun _ => Response.err "503" "Number of requests exceeded"

/-- An environment in which every application request is answered with the
stale-token error and every interleaved login request succeeds (requests
are consumed alternately, starting with an application request). -/
def streamStaleLoop : Nat → Response :=
  fun n => if n % 2 == 0 then Response.err "401" staleAuthMessage
           else Response.ok ⟨"tok", 1, 0⟩

/-- Initial state for the stale-token-loop scenario: logged in
(token `"tok"`), retry counter 0, one caller dictionary on the heap. -/
def stLoop : ClientState :=
  ⟨[[("foo", "bar")]], some "tok", 0, 0, none, 0, []⟩

/-- Environment for the PUT-retry scenario: first a rate-limit error,
then success. -/
def streamPut : Nat → Response :=
  fun n => if n == 0 then Response.err "503" "Number of requests exceeded"
           else Response.ok ⟨"tok", 1, 7⟩

/-- Initial state for the PUT-retry scenario: logged in, caller dictionary
carrying one ordinary parameter and an `api_put` body. -/
def stPut : ClientState :=
  ⟨[[("foo", "bar"), ("api_put", "<contact/>")]], some "tok0", 3, 0, none, 0, []⟩

/-- The dictionary sent by a `login` request (`auth/login/...` path, so no
token injection): the API key, then the signature. -/
def loginDict (cfg : Config) : Dict :=
  signParams cfg (loginPath cfg) (dictSet [] "api_key" cfg.api_key)

/-- The client state after a successful `login` from state `s` whose
response supplied token `t` and sequence `sq`: the login request was
dispatched (one event, one response consumed, retry counter reset by the
success), the credentials were stored, and the credential store — when
configured — was notified. -/
def postLoginState (cfg : Config) (s : ClientState) (t : String) (sq : Int) : ClientState :=
  { s with
    heap := s.heap ++ [loginDict cfg],
    token := some t,
    sequence := sq,
    retry_count := 0,
    cursor := s.cursor + 1,
    handler := if s.handler.isSome then some (t, sq) else s.handler,
    events := (s.events ++ [Event.httpGet (loginPath cfg) (loginDict cfg)])
      ++ (if s.handler.isSome then [Event.setCreds t sq] else []) }

/-! ### Basic lemmas about the dictionary model -/

theorem dictHasKey_cons (kv : String × String) (d : Dict) (k : String) :
    dictHasKey (kv :: d) k = (kv.1 == k || dictHasKey d k) := by
  simp [dictHasKey]

theorem dictHasKey_append (d₁ d₂ : Dict) (k : String) :
    dictHasKey (d₁ ++ d₂) k = (dictHasKey d₁ k || dictHasKey d₂ k) := by
  simp [dictHasKey]

theorem dictGet_cons (kv : String × String) (d : Dict) (k : String) :
    dictGet (kv :: d) k = if kv.1 == k then some kv.2 else dictGet d k := by
  by_cases h : kv.1 == k <;> simp [dictGet, List.find?, h]

theorem dictGet_eq_none_of_hasKey_false (d : Dict) (k : String)
    (h : dictHasKey d k = false) : dictGet d k = none := by
  induction d with
  | nil => rfl
  | cons kv d ih =>
    rw [dictHasKey_cons] at h
    rcases Bool.or_eq_false_iff.mp h with ⟨h₁, h₂⟩
    rw [dictGet_cons, h₁, if_neg (by simp)]
    exact ih h₂

/-- The replacement map used by `dictSet` preserves every entry's key. -/
theorem replace_fst (k v : String) (kv : String × String) :
    (if kv.1 == k then (k, v) else kv).1 = kv.1 := by
  by_cases h : kv.1 == k
  · rw [if_pos h]
    exact (beq_iff_eq.mp h).symm
  · rw [if_neg h]

theorem dictHasKey_map_replace (d : Dict) (k v k' : String) :
    dictHasKey (d.map (fun kv => if kv.1 == k then (k, v) else kv)) k' = dictHasKey d k' := by
  induction d with
  | nil => rfl
  | cons kv d ih =>
    rw [List.map_cons, dictHasKey_cons, dictHasKey_cons, ih, replace_fst]

/-- When the key is absent, the replacement map is the identity. -/
theorem mapReplaceId (d : Dict) (k v : String) (h : dictHasKey d k = false) :
    d.map (fun kv => if kv.1 == k then (k, v) else kv) = d := by
  induction d with
  | nil => rfl
  | cons kv d ih =>
    rw [dictHasKey_cons, Bool.or_eq_false_iff] at h
    rw [List.map_cons, if_neg (by rw [h.1]; exact Bool.false_ne_true), ih h.2]

theorem dictHasKey_dictSet (d : Dict) (k v k' : String) :
    dictHasKey (dictSet d k v) k' = (k == k' || dictHasKey d k') := by
  unfold dictSet
  by_cases h : dictHasKey d k
  · rw [if_pos h, dictHasKey_map_replace]
    cases hkk : (k == k')
    · rw [Bool.false_or]
    · have hk' : k = k' := beq_iff_eq.mp hkk
      subst hk'
      rw [h, Bool.or_true]
  · rw [if_neg h, dictHasKey_append]
    have h1 : dictHasKey [(k, v)] k' = (k == k') := by
      simp [dictHasKey]
    rw [h1, Bool.or_comm]

theorem dictGet_map_replace_self (d : Dict) (k v : String)
    (h : dictHasKey d k = true) :
    dictGet (d.map (fun kv => if kv.1 == k then (k, v) else kv)) k = some v := by
  induction d with
  | nil => simp [dictHasKey] at h
  | cons kv d ih =>
    by_cases hk : kv.1 == k
    · rw [List.map_cons, if_pos hk, dictGet_cons, if_pos (by simp)]
    · rw [List.map_cons, if_neg hk, dictGet_cons, if_neg hk]
      rw [dictHasKey_cons] at h
      have hkf : (kv.1 == k) = false := by
        simpa using hk
      rw [hkf, Bool.false_or] at h
      exact ih h

theorem dictGet_append_single_self (d : Dict) (k v : String)
    (h : dictHasKey d k = false) :
    dictGet (d ++ [(k, v)]) k = some v := by
  induction d with
  | nil => rw [List.nil_append, dictGet_cons, if_pos (by simp)]
  | cons kv d ih =>
    rw [dictHasKey_cons, Bool.or_eq_false_iff] at h
    rw [List.cons_append, dictGet_cons, if_neg (by simp [h.1])]
    exact ih h.2

theorem dictGet_map_replace_ne (d : Dict) (k v k' : String) (hne : k ≠ k') :
    dictGet (d.map (fun kv => if kv.1 == k then (k, v) else kv)) k' = dictGet d k' := by
  induction d with
  | nil => rfl
  | cons kv d ih =>
    by_cases hk : kv.1 == k
    · have hkv : kv.1 = k := beq_iff_eq.mp hk
      rw [List.map_cons, if_pos hk]
      simp only [dictGet_cons]
      rw [if_neg (by simp [hne]), if_neg (by simp [hkv, hne])]
      exact ih
    · rw [List.map_cons, if_neg hk]
      simp only [dictGet_cons]
      by_cases hk' : kv.1 == k'
      · rw [if_pos hk', if_pos hk']
      · rw [if_neg hk', if_neg hk']
        exact ih

theorem dictGet_append_single_ne (d : Dict) (k v k' : String) (hne : k ≠ k') :
    dictGet (d ++ [(k, v)]) k' = dictGet d k' := by
  induction d with
  | nil =>
    rw [List.nil_append, dictGet_cons, if_neg (by simp [hne])]
  | cons kv d ih =>
    rw [List.cons_append]
    simp only [dictGet_cons]
    by_cases hk' : kv.1 == k'
    · rw [if_pos hk', if_pos hk']
    · rw [if_neg hk', if_neg hk']
      exact ih

theorem dictGet_dictSet_self (d : Dict) (k v : String) :
    dictGet (dictSet d k v) k = some v := by
  unfold dictSet
  by_cases h : dictHasKey d k
  · rw [if_pos h]
    exact dictGet_map_replace_self d k v h
  · rw [if_neg h]
    exact dictGet_append_single_self d k v (by simpa using h)

theorem dictGet_dictSet_ne (d : Dict) (k v k' : String) (hne : k ≠ k') :
    dictGet (dictSet d k v) k' = dictGet d k' := by
  unfold dictSet
  by_cases h : dictHasKey d k
  · rw [if_pos h]
    exact dictGet_map_replace_ne d k v k' hne
  · rw [if_neg h]
    exact dictGet_append_single_ne d k v k' hne

theorem dictHasKey_dictDel_ne (d : Dict) (k k' : String) (hne : k ≠ k') :
    dictHasKey (dictDel d k') k = dictHasKey d k := by
  induction d with
  | nil => rfl
  | cons kv d ih =>
    rw [dictHasKey_cons]
    unfold dictDel
    rw [List.filter_cons]
    by_cases hk : kv.1 == k'
    · have : (kv.1 != k') = false := by
        simp [bne] at hk ⊢
        exact hk
      rw [this, if_neg Bool.false_ne_true]
      unfold dictDel at ih
      rw [ih]
      have hkv : kv.1 = k' := beq_iff_eq.mp hk
      have : (kv.1 == k) = false := by
        rw [hkv]
        exact beq_eq_false_iff_ne.mpr (Ne.symm hne)
      rw [this, Bool.false_or]
    · have : (kv.1 != k') = true := by
        simp [bne]
        simpa using hk
      rw [this, if_pos rfl, dictHasKey_cons]
      unfold dictDel at ih
      rw [ih]

theorem dictDel_of_hasKey_false (d : Dict) (k : String)
    (h : dictHasKey d k = false) : dictDel d k = d := by
  induction d with
  | nil => rfl
  | cons kv d ih =>
    rw [dictHasKey_cons, Bool.or_eq_false_iff] at h
    unfold dictDel
    rw [List.filter_cons]
    have : (kv.1 != k) = true := by
      simp [bne, h.1]
    rw [this, if_pos rfl]
    unfold dictDel at ih
    rw [ih h.2]

theorem dictDel_append_single_self (d : Dict) (k v : String) :
    dictDel (d ++ [(k, v)]) k = dictDel d k := by
  unfold dictDel
  rw [List.filter_append]
  have : List.filter (fun kv => kv.1 != k) [(k, v)] = [] := by
    simp [List.filter, bne]
  rw [this, List.append_nil]

/-! ### Lemmas about the heap model -/

theorem heapGet_concat (h : List Dict) (d : Dict) :
    heapGet (h ++ [d]) h.length = d := by
  induction h with
  | nil => rfl
  | cons e h ih => simp [heapGet]

theorem hWrite_concat (h : List Dict) (d d' : Dict) :
    hWrite (h ++ [d]) h.length d' = h ++ [d'] := by
  induction h with
  | nil => rfl
  | cons e h ih => simp [hWrite]

/-! ### Lemmas about `pyStartsWith` -/

theorem beginsWithL_append (l t : List Char) : beginsWithL l (l ++ t) = true := by
  induction l with
  | nil => rfl
  | cons a l ih => simpa [beginsWithL] using ih

/-- The login call path built at line 277 always passes the
`call_path.startswith('auth/login')` test of line 151. -/
theorem loginPath_startsWith (cfg : Config) :
    pyStartsWith (loginPath cfg) "auth/login" = true := by
  unfold pyStartsWith loginPath
  have h1 : ("auth/login/" ++ cfg.username ++ "/" ++ cfg.md5_password).data
      = "auth/login".data ++ ('/' :: (cfg.username.data ++ ('/' :: cfg.md5_password.data))) := by
    simp [String.data_append]
  rw [h1]
  exact beginsWithL_append _ _

/-! ### Lemmas about the signature computation -/

/-- `__calc_signature` reads its input dictionary only through
`dictDel · "api_sig"`. -/
theorem calc_signature_congr (cfg : Config) (cp : String) (d d' : Dict)
    (h : dictDel d "api_sig" = dictDel d' "api_sig") :
    calc_signature cfg cp d = calc_signature cfg cp d' := by
  unfold calc_signature
  rw [h]

/-! ### Permutation invariance of dictionary lookups -/

theorem dictHasKey_perm {d d' : Dict} (hp : d.Perm d') (k : String) :
    dictHasKey d k = dictHasKey d' k := by
  unfold dictHasKey
  cases h : d'.any fun kv => kv.1 == k
  · rw [List.any_eq_false] at h ⊢
    intro kv hm
    exact h kv (hp.mem_iff.mp hm)
  · rw [List.any_eq_true] at h ⊢
    obtain ⟨kv, hm, hkv⟩ := h
    exact ⟨kv, hp.mem_iff.mpr hm, hkv⟩

theorem hasKey_false_of_dictGet_eq_none {d : Dict} {k : String}
    (h : dictGet d k = none) : dictHasKey d k = false := by
  induction d with
  | nil => rfl
  | cons kv d ih =>
    rw [dictGet_cons] at h
    rw [dictHasKey_cons]
    by_cases hk : kv.1 == k
    · rw [if_pos hk] at h
      cases h
    · rw [if_neg hk] at h
      have : (kv.1 == k) = false := by
        simpa using hk
      rw [this, Bool.false_or]
      exact ih h

theorem dictGet_eq_some_of_mem (d : Dict) (hnd : (d.map Prod.fst).Nodup)
    {k v : String} (hm : (k, v) ∈ d) : dictGet d k = some v := by
  induction d with
  | nil => cases hm
  | cons kv d ih =>
    rw [List.map_cons, List.nodup_cons] at hnd
    rw [dictGet_cons]
    rcases List.mem_cons.mp hm with h | h
    · cases h.symm
      rw [if_pos (by simp)]
    · by_cases hk : kv.1 == k
      · exfalso
        apply hnd.1
        rw [beq_iff_eq.mp hk]
        exact List.mem_map_of_mem Prod.fst h
      · rw [if_neg hk]
        exact ih hnd.2 h

theorem mem_of_dictGet_eq_some {d : Dict} {k v : String}
    (h : dictGet d k = some v) : (k, v) ∈ d := by
  unfold dictGet at h
  cases hf : d.find? (fun kv => kv.1 == k) with
  | none =>
    rw [hf] at h
    cases h
  | some kv =>
    rw [hf] at h
    have hm := List.mem_of_find?_eq_some hf
    have hp := List.find?_some hf
    have hv : kv.2 = v := by
      simpa using h
    have hk : kv.1 = k := beq_iff_eq.mp hp
    have : kv = (k, v) := by
      cases kv
      simp only at hv hk
      rw [hv, hk]
    rw [this] at hm
    exact hm

/-- Under the dictionary invariant (unique keys), lookups are invariant
under permutation of the underlying entry list. -/
theorem dictGet_perm {d d' : Dict} (hp : d.Perm d')
    (hnd : (d.map Prod.fst).Nodup) (k : String) :
    dictGet d k = dictGet d' k := by
  have hnd' : (d'.map Prod.fst).Nodup := ((hp.map Prod.fst).nodup_iff).mp hnd
  cases h : dictGet d k with
  | none =>
    have hk' : dictHasKey d' k = false := by
      rw [← dictHasKey_perm hp k]
      exact hasKey_false_of_dictGet_eq_none h
    exact (dictGet_eq_none_of_hasKey_false d' k hk').symm
  | some v =>
    exact (dictGet_eq_some_of_mem d' hnd' (hp.mem_iff.mp (mem_of_dictGet_eq_some h))).symm

theorem lexLe_total : ∀ as bs : List Char, lexLe as bs = true ∨ lexLe bs as = true := by
  intro as
  induction as with
  | nil =>
    intro bs
    left
    rfl
  | cons a as ih =>
    intro bs
    cases bs with
    | nil =>
      right
      rfl
    | cons b bs =>
      by_cases hab : a = b
      · subst hab
        simp only [lexLe, if_pos rfl]
        exact ih bs
      · simp only [lexLe, if_neg hab, if_neg (Ne.symm hab)]
        rcases Nat.lt_trichotomy a.toNat b.toNat with h | h | h
        · left
          exact decide_eq_true h
        · exact absurd (Char.ext (UInt32.ext h)) hab
        · right
          exact decide_eq_true h

theorem lexLe_trans : ∀ as bs cs : List Char,
    lexLe as bs = true → lexLe bs cs = true → lexLe as cs = true := by
  intro as
  induction as with
  | nil =>
    intro bs cs h1 h2
    rfl
  | cons a as ih =>
    intro bs cs h1 h2
    cases bs with
    | nil => simp [lexLe] at h1
    | cons b bs =>
      cases cs with
      | nil => simp [lexLe] at h2
      | cons c cs =>
        by_cases hab : a = b
        · subst hab
          simp only [lexLe, if_pos rfl] at h1
          by_cases hac : a = c
          · subst hac
            simp only [lexLe, if_pos rfl] at h2 ⊢
            exact ih bs cs h1 h2
          · simp only [lexLe, if_neg hac] at h2 ⊢
            exact h2
        · simp only [lexLe, if_neg hab] at h1
          replace h1 := of_decide_eq_true h1
          by_cases hbc : b = c
          · subst hbc
            simp only [lexLe, if_neg hab]
            exact decide_eq_true h1
          · simp only [lexLe, if_neg hbc] at h2
            replace h2 := of_decide_eq_true h2
            have hlt : a.toNat < c.toNat := Nat.lt_trans h1 h2
            have hac : a ≠ c := by
              intro he
              rw [he] at hlt
              exact Nat.lt_irrefl _ hlt
            simp only [lexLe, if_neg hac]
            exact decide_eq_true hlt

theorem lexLe_antisymm : ∀ as bs : List Char,
    lexLe as bs = true → lexLe bs as = true → as = bs := by
  intro as
  induction as with
  | nil =>
    intro bs h1 h2
    cases bs with
    | nil => rfl
    | cons b bs => simp [lexLe] at h2
  | cons a as ih =>
    intro bs h1 h2
    cases bs with
    | nil => simp [lexLe] at h1
    | cons b bs =>
      by_cases hab : a = b
      · subst hab
        simp only [lexLe, if_pos rfl] at h1 h2
        rw [ih bs h1 h2]
      · simp only [lexLe, if_neg hab, if_neg (Ne.symm hab)] at h1 h2
        replace h1 := of_decide_eq_true h1
        replace h2 := of_decide_eq_true h2
        exact absurd (Nat.lt_trans h1 h2) (Nat.lt_irrefl _)

/-- Sorting with the pipeline's key order maps permutation-equal string
lists to the same sorted list. -/
theorem insertionSort_eq_of_perm {l₁ l₂ : List String} (hp : l₁.Perm l₂) :
    List.insertionSort pyStrLeP l₁ = List.insertionSort pyStrLeP l₂ := by
  haveI : IsTotal String pyStrLeP := ⟨fun a b => lexLe_total a.data b.data⟩
  haveI : IsTrans String pyStrLeP := ⟨fun a b c h1 h2 => lexLe_trans a.data b.data c.data h1 h2⟩
  haveI : IsAntisymm String pyStrLeP :=
    ⟨fun a b h1 h2 => String.ext (lexLe_antisymm a.data b.data h1 h2)⟩
  refine @List.eq_of_perm_of_sorted String pyStrLeP _ _ _ ?_ ?_ ?_
  · exact (List.perm_insertionSort _ l₁).trans (hp.trans (List.perm_insertionSort _ l₂).symm)
  · exact List.sorted_insertionSort _ l₁
  · exact List.sorted_insertionSort _ l₂

/-- The full permutation-invariance result for the signature computation:
for dictionaries with unique keys that are key-order permutations of each
other, `__calc_signature` computes the same signature. -/
theorem calc_signature_perm (cfg : Config) (cp : String) {d d' : Dict}
    (hp : d.Perm d') (hnd : (d.map Prod.fst).Nodup) :
    (calc_signature cfg cp d).1 = (calc_signature cfg cp d').1 := by
  unfold calc_signature
  have hpf : (dictDel d "api_sig").Perm (dictDel d' "api_sig") := hp.filter _
  have hndf : ((dictDel d "api_sig").map Prod.fst).Nodup :=
    List.Nodup.sublist (List.Sublist.map Prod.fst (List.filter_sublist d)) hnd
  have hkeys : (dictDel d "api_sig").map Prod.fst |>.Perm ((dictDel d' "api_sig").map Prod.fst) :=
    hpf.map Prod.fst
  have hsorted := insertionSort_eq_of_perm hkeys
  simp only
  rw [hsorted]
  have hget : ∀ k, dictGet (dictDel d "api_sig") k = dictGet (dictDel d' "api_sig") k :=
    fun k => dictGet_perm hpf hndf k
  have : (fun k => k ++ ((dictGet (dictDel d "api_sig") k).getD ""))
      = (fun k => k ++ ((dictGet (dictDel d' "api_sig") k).getD "")) := by
    funext k
    rw [hget k]
  rw [this]

/-! ### Key-set lemmas for the parameter-building pipeline -/

theorem calc_signature_snd (cfg : Config) (cp : String) (d : Dict) :
    (calc_signature cfg cp d).2 = dictDel d "api_sig" := rfl

theorem dictHasKey_signParams (cfg : Config) (cp : String) (d : Dict) (k : String)
    (hk : k ≠ "api_sig") :
    dictHasKey (signParams cfg cp d) k = dictHasKey d k := by
  unfold signParams
  rw [dictHasKey_dictSet, calc_signature_snd,
    dictHasKey_dictDel_ne d k "api_sig" hk]
  have : ("api_sig" == k) = false := beq_eq_false_iff_ne.mpr (Ne.symm hk)
  rw [this, Bool.false_or]

theorem dictHasKey_withCreds (tok : Option String) (seq : Int) (d : Dict) (k : String)
    (h1 : k ≠ "api_tok") (h2 : k ≠ "api_seq") :
    dictHasKey (withCreds tok seq d) k = dictHasKey d k := by
  unfold withCreds
  rw [dictHasKey_dictSet, dictHasKey_dictSet]
  have e1 : ("api_seq" == k) = false := beq_eq_false_iff_ne.mpr (Ne.symm h2)
  have e2 : ("api_tok" == k) = false := beq_eq_false_iff_ne.mpr (Ne.symm h1)
  rw [e1, e2, Bool.false_or, Bool.false_or]

theorem dictHasKey_requestDict_api_put (cfg : Config) (cp : String)
    (tok : Option String) (seq : Int) (d : Dict)
    (h : dictHasKey d "api_put" = false) :
    dictHasKey (requestDict cfg cp tok seq d) "api_put" = false := by
  unfold requestDict
  rw [dictHasKey_signParams _ _ _ _ (by decide),
    dictHasKey_withCreds _ _ _ _ (by decide) (by decide),
    dictHasKey_dictSet]
  rw [h]
  rfl

/-! ### Step lemmas for symbolic evaluation of `do_request` -/

theorem do_request_zero (cfg : Config) (responses : Nat → Response)
    (cp : String) (pa : ParamsArg) (s : ClientState) :
    do_request cfg responses 0 cp pa s = (Outcome.outOfFuel, s) := rfl

theorem do_request_succ (cfg : Config) (responses : Nat → Response) (fuel : Nat)
    (cp : String) (pa : ParamsArg) (s : ClientState) :
    do_request cfg responses (fuel + 1) cp pa s =
      do_requestF cfg responses (do_request cfg responses fuel) cp pa s := rfl

/-- Lines 140-142: the retry-ceiling guard fires before anything else and
leaves the state untouched. -/
theorem do_request_guard (cfg : Config) (responses : Nat → Response) (fuel : Nat)
    (cp : String) (parg : ParamsArg) (s : ClientState)
    (h : s.retry_count > cfg.max_retry_count) :
    do_request cfg responses (fuel + 1) cp parg s =
      (Outcome.excessiveRetries
        ("Exceeded maximum retry count (" ++ toString cfg.max_retry_count ++ ")"), s) := by
  rw [do_request_succ]
  unfold do_requestF
  rw [if_pos h]

/-- A logged-in, non-login call with a referenced parameter dictionary:
lines 140-157 build the outgoing dictionary, leaving the send/classify
phase. -/
theorem do_request_step (cfg : Config) (responses : Nat → Response) (fuel : Nat)
    (cp : String) (r : Nat) (s : ClientState)
    (hg : ¬ s.retry_count > cfg.max_retry_count)
    (hlp : pyStartsWith cp "auth/login" = false)
    (htok : pyFalsy s.token = false) :
    do_request cfg responses (fuel + 1) cp (ParamsArg.ref r) s =
      sendAndClassify (fun cp' pa s' => do_request cfg responses fuel cp' pa s')
        cfg responses cp s.heap.length
        { s with heap := s.heap ++
            [withCreds s.token s.sequence (dictSet (heapGet s.heap r) "api_key" cfg.api_key)] } := by
  rw [do_request_succ]
  unfold do_requestF
  rw [if_neg hg]
  simp only [pyDict]
  rw [if_neg (by simp [hlp]), if_neg (by simp [htok])]
  simp only [hWrite_concat, heapGet_concat]
  rfl

/-- A call on the login path (`parg = {}`): no token injection happens. -/
theorem do_request_step_login (cfg : Config) (responses : Nat → Response) (fuel : Nat)
    (cp : String) (s : ClientState)
    (hg : ¬ s.retry_count > cfg.max_retry_count)
    (hlp : pyStartsWith cp "auth/login" = true) :
    do_request cfg responses (fuel + 1) cp ParamsArg.empty s =
      sendAndClassify (fun cp' pa s' => do_request cfg responses fuel cp' pa s')
        cfg responses cp s.heap.length
        { s with heap := s.heap ++ [dictSet [] "api_key" cfg.api_key] } := by
  rw [do_request_succ]
  unfold do_requestF
  rw [if_neg hg]
  simp only [pyDict]
  rw [if_pos hlp]
  simp only [hWrite_concat, heapGet_concat]

/-- `sendAndClassify` on a dictionary with no `api_put` key: the request
goes out as a GET carrying the signed dictionary, and the local `params`
variable still references the dictionary object for the retry branches. -/
theorem sendAndClassify_no_put (doReq : String → ParamsArg → ClientState → Outcome × ClientState)
    (cfg : Config) (responses : Nat → Response) (cp : String)
    (h : List Dict) (d : Dict) (st : ClientState)
    (hheap : st.heap = h ++ [d])
    (hput : dictHasKey (signParams cfg cp d) "api_put" = false) :
    sendAndClassify doReq cfg responses cp h.length st =
      classify doReq cfg cp (ParamsArg.ref h.length) (responses st.cursor)
        { st with heap := h ++ [signParams cfg cp d], cursor := st.cursor + 1,
                  events := st.events ++ [Event.httpGet cp (signParams cfg cp d)] } := by
  unfold sendAndClassify
  rw [hheap]
  simp only [heapGet_concat, hWrite_concat]
  rw [dictGet_eq_none_of_hasKey_false _ _ hput]
  simp only [heapGet_concat]

/-! ### Branch lemmas for `classify` -/

theorem classify_ok (doReq : String → ParamsArg → ClientState → Outcome × ClientState)
    (cfg : Config) (cp : String) (pa : ParamsArg) (doc : Doc) (st : ClientState) :
    classify doReq cfg cp pa (Response.ok doc) st =
      (Outcome.ok doc, { st with retry_count := 0 }) := rfl

theorem classify_503 (doReq : String → ParamsArg → ClientState → Outcome × ClientState)
    (cfg : Config) (cp : String) (pa : ParamsArg) (m : String) (st : ClientState) :
    classify doReq cfg cp pa (Response.err "503" m) st =
      doReq cp pa { st with retry_count := st.retry_count + 1,
                            events := st.events ++ [Event.sleepRand (st.retry_count + 1)] } := rfl

theorem classify_401_stale (doReq : String → ParamsArg → ClientState → Outcome × ClientState)
    (cfg : Config) (cp : String) (pa : ParamsArg) (st : ClientState) :
    classify doReq cfg cp pa (Response.err "401" staleAuthMessage) st =
      (match loginVia doReq cfg
          { st with events := st.events ++ [Event.sleepRand st.retry_count],
                    retry_count := st.retry_count + 1 } with
        | (Except.error o, s') => (o, s')
        | (Except.ok _, s') => doReq cp pa s') := rfl

/-- The error-classification chain of lines 187-215, with the response
destructured. -/
theorem classify_err (doReq : String → ParamsArg → ClientState → Outcome × ClientState)
    (cfg : Config) (cp : String) (pa : ParamsArg) (code msg : String) (st : ClientState) :
    classify doReq cfg cp pa (Response.err code msg) st =
      (if (code == "503") = true then
        doReq cp pa { st with retry_count := st.retry_count + 1,
                              events := st.events ++ [Event.sleepRand (st.retry_count + 1)] }
      else if (code == "401") = true then
        (if (msg != staleAuthMessage) = true then
          (Outcome.clientError
            ("Unrecoverable authentication error for " ++ cp ++ ": " ++ code ++ " - " ++ msg), st)
        else
          match loginVia doReq cfg
              { st with events := st.events ++ [Event.sleepRand st.retry_count],
                        retry_count := st.retry_count + 1 } with
          | (Except.error o, s') => (o, s')
          | (Except.ok _, s') => doReq cp pa s')
      else
        (Outcome.clientError
          ("Unrecoverable error for " ++ cp ++ ": " ++ code ++ " - " ++ msg), st)) := rfl

theorem classify_401_other (doReq : String → ParamsArg → ClientState → Outcome × ClientState)
    (cfg : Config) (cp : String) (pa : ParamsArg) (m : String) (st : ClientState)
    (hm : m ≠ staleAuthMessage) :
    classify doReq cfg cp pa (Response.err "401" m) st =
      (Outcome.clientError
        ("Unrecoverable authentication error for " ++ cp ++ ": " ++ "401" ++ " - " ++ m), st) := by
  have h3 : (m != staleAuthMessage) = true := bne_iff_ne.mpr hm
  rw [classify_err, if_neg (by decide), if_pos (by decide), if_pos h3]

theorem classify_err_other (doReq : String → ParamsArg → ClientState → Outcome × ClientState)
    (cfg : Config) (cp : String) (pa : ParamsArg) (code m : String) (st : ClientState)
    (hc1 : code ≠ "503") (hc2 : code ≠ "401") :
    classify doReq cfg cp pa (Response.err code m) st =
      (Outcome.clientError
        ("Unrecoverable error for " ++ cp ++ ": " ++ code ++ " - " ++ m), st) := by
  have h1 : (code == "503") = false := beq_eq_false_iff_ne.mpr hc1
  have h2 : (code == "401") = false := beq_eq_false_iff_ne.mpr hc2
  rw [classify_err, if_neg (by simp [h1]), if_neg (by simp [h2])]

theorem loginVia_eq (doReq : String → ParamsArg → ClientState → Outcome × ClientState)
    (cfg : Config) (s : ClientState) :
    loginVia doReq cfg s =
      (match doReq (loginPath cfg) ParamsArg.empty s with
        | (Outcome.ok doc, s') => loginFinish doc s'
        | (o, s') => (Except.error o, s')) := rfl

/-! ### Further dictionary and heap lemmas -/

theorem dictGet_dictDel_ne (d : Dict) (k k' : String) (hne : k ≠ k') :
    dictGet (dictDel d k') k = dictGet d k := by
  induction d with
  | nil => rfl
  | cons kv d ih =>
    unfold dictDel at ih ⊢
    rw [List.filter_cons]
    by_cases hk : kv.1 == k'
    · have hb : (kv.1 != k') = false := by
        simp [bne] at hk ⊢
        exact hk
      rw [hb, if_neg Bool.false_ne_true, ih, dictGet_cons]
      have hc : (kv.1 == k) = false := by
        rw [beq_iff_eq.mp hk]
        exact beq_eq_false_iff_ne.mpr (Ne.symm hne)
      rw [hc, if_neg Bool.false_ne_true]
    · have hb : (kv.1 != k') = true := by
        simp [bne]
        simpa using hk
      rw [hb, if_pos rfl]
      simp only [dictGet_cons]
      by_cases hk2 : kv.1 == k
      · rw [if_pos hk2, if_pos hk2]
      · rw [if_neg hk2, if_neg hk2]
        exact ih

/-- The outgoing dictionary of a logged-in call carries the held token
under `api_tok`. -/
theorem dictGet_requestDict_api_tok (cfg : Config) (cp : String)
    (tok : Option String) (seq : Int) (d : Dict) :
    dictGet (requestDict cfg cp tok seq d) "api_tok" = some (tok.getD "") := by
  unfold requestDict signParams
  rw [dictGet_dictSet_ne _ _ _ _ (by decide), calc_signature_snd,
    dictGet_dictDel_ne _ _ _ (by decide)]
  unfold withCreds
  rw [dictGet_dictSet_ne _ _ _ _ (by decide), dictGet_dictSet_self]

/-- The outgoing dictionary of a logged-in call carries the held sequence
under `api_seq`. -/
theorem dictGet_requestDict_api_seq (cfg : Config) (cp : String)
    (tok : Option String) (seq : Int) (d : Dict) :
    dictGet (requestDict cfg cp tok seq d) "api_seq" = some (toString seq) := by
  unfold requestDict signParams
  rw [dictGet_dictSet_ne _ _ _ _ (by decide), calc_signature_snd,
    dictGet_dictDel_ne _ _ _ (by decide)]
  unfold withCreds
  rw [dictGet_dictSet_self]

theorem take_hWrite_of_le (h : List Dict) (p : Nat) (d : Dict) (n : Nat) (hn : n ≤ p) :
    (hWrite h p d).take n = h.take n := by
  unfold hWrite
  induction h generalizing p n with
  | nil => simp
  | cons e h ih =>
    cases p with
    | zero =>
      have : n = 0 := Nat.le_zero.mp hn
      simp [this]
    | succ p =>
      cases n with
      | zero => simp
      | succ n =>
        simp only [List.set_cons_succ, List.take_succ_cons]
        rw [ih p n (Nat.le_of_succ_le_succ hn)]

theorem getD_eq_of_take_eq (l l' : List Dict) (n r : Nat) (hr : r < n)
    (h : l'.take n = l.take n) : l'.getD r [] = l.getD r [] := by
  rw [List.getD_eq_getElem?_getD, List.getD_eq_getElem?_getD,
    ← List.getElem?_take_of_lt (l := l') hr, ← List.getElem?_take_of_lt (l := l) hr, h]

/-- Reading below an append stays in the left part. -/
theorem heapGet_append_left (h t : List Dict) (r : Nat) (hr : r < h.length) :
    heapGet (h ++ t) r = heapGet h r := by
  unfold heapGet
  exact List.getD_append h t [] r hr

/-! ## Claim results -/

/-- Claim C7: for all call paths and parameter mappings `p`, and every
key-order permutation `p'` of `p` (same key-value pairs, different
enumeration order, keys unique as in a Python dict), the computed request
signature of `(call_path, p)` equals that of `(call_path, p')`, because
`__calc_signature` sorts the parameters alphabetically by key before
concatenation (client.py lines 119-127). -/
theorem c7_signature_invariant_under_key_permutation (cfg : Config) (call_path : String)
    (p p' : Dict) (hperm : p.Perm p') (hnd : (p.map Prod.fst).Nodup) :
    (calc_signature cfg call_path p).1 = (calc_signature cfg call_path p').1 :=
  calc_signature_perm cfg call_path hperm hnd

theorem c7_signature_invariant_under_key_permutation_witness :
    ([("b", "2"), ("a", "1")] : Dict).Perm [("a", "1"), ("b", "2")] ∧
    (([("b", "2"), ("a", "1")] : Dict).map Prod.fst).Nodup ∧
    (calc_signature (cfgDemo 5) "lists" [("b", "2"), ("a", "1")]).1
      = (calc_signature (cfgDemo 5) "lists" [("a", "1"), ("b", "2")]).1 :=
  ⟨by decide, by decide,
    c7_signature_invariant_under_key_permutation (cfgDemo 5) "lists"
      [("b", "2"), ("a", "1")] [("a", "1"), ("b", "2")] (by decide) (by decide)⟩

/-- Claim C8: for every call path, parameter mapping `p` without an
`api_sig` key, and value `X`, signing `p` with `api_sig=X` added produces
the same signature as signing `p` itself — `__calc_signature` first strips
any pre-existing `api_sig` (client.py lines 119-121), so a retried request
is not signed over its own stale signature. -/
theorem c8_signing_strips_previous_signature (cfg : Config) (call_path : String)
    (p : Dict) (X : String) (h : dictHasKey p "api_sig" = false) :
    (calc_signature cfg call_path (dictSet p "api_sig" X)).1
      = (calc_signature cfg call_path p).1 := by
  have hd : dictDel (dictSet p "api_sig" X) "api_sig" = dictDel p "api_sig" := by
    unfold dictSet
    rw [if_neg (by simp [h])]
    exact dictDel_append_single_self p "api_sig" X
  exact congrArg Prod.fst (calc_signature_congr cfg call_path _ _ hd)

theorem c8_signing_strips_previous_signature_witness :
    dictHasKey [("foo", "bar")] "api_sig" = false ∧
    (calc_signature (cfgDemo 5) "contact" (dictSet [("foo", "bar")] "api_sig" "STALE")).1
      = (calc_signature (cfgDemo 5) "contact" [("foo", "bar")]).1 :=
  ⟨by decide,
    c8_signing_strips_previous_signature (cfgDemo 5) "contact" [("foo", "bar")] "STALE"
      (by decide)⟩

/-- Claim C4: whenever the retry counter strictly exceeds the configured
maximum, any call to the pipeline fails immediately with
`ExcessiveRetriesException` (lines 140-142) — the returned state is the
input state unchanged, so no HTTP request was issued (no event appended)
and the credential state was not mutated. -/
theorem c4_retry_guard_fails_immediately (cfg : Config) (responses : Nat → Response)
    (fuel : Nat) (call_path : String) (parg : ParamsArg) (s : ClientState)
    (h : s.retry_count > cfg.max_retry_count) :
    do_request cfg responses (fuel + 1) call_path parg s =
      (Outcome.excessiveRetries
        ("Exceeded maximum retry count (" ++ toString cfg.max_retry_count ++ ")"), s) :=
  do_request_guard cfg responses fuel call_path parg s h

theorem c4_retry_guard_fails_immediately_witness :
    (6 > (cfgDemo 5).max_retry_count) ∧
    do_request (cfgDemo 5) stream503 1 "lists" (ParamsArg.ref 0)
        ⟨[[("foo", "bar")]], some "tok", 0, 6, none, 0, []⟩ =
      (Outcome.excessiveRetries
        ("Exceeded maximum retry count (" ++ toString (cfgDemo 5).max_retry_count ++ ")"),
        ⟨[[("foo", "bar")]], some "tok", 0, 6, none, 0, []⟩) :=
  ⟨by decide,
    c4_retry_guard_fails_immediately (cfgDemo 5) stream503 0 "lists" (ParamsArg.ref 0)
      ⟨[[("foo", "bar")]], some "tok", 0, 6, none, 0, []⟩ (by decide)⟩

/-- Claim C6: a failure response whose error code is neither `503` nor a
stale-token `401` (including a permission-denied `401`) makes the call
fail immediately on the first attempt with `ClientException`: exactly one
HTTP request is recorded, no retry happens (retry counter, token and
sequence unchanged), and the error message carries the call path, the
error code and the error message (lines 198-215). -/
theorem c6_unrecoverable_error_fails_first_attempt (cfg : Config)
    (responses : Nat → Response) (fuel : Nat) (call_path : String) (r : Nat)
    (s : ClientState) (code m : String)
    (hg : ¬ s.retry_count > cfg.max_retry_count)
    (hlp : pyStartsWith call_path "auth/login" = false)
    (htok : pyFalsy s.token = false)
    (hput : dictHasKey (heapGet s.heap r) "api_put" = false)
    (hresp : responses s.cursor = Response.err code m)
    (hc503 : code ≠ "503")
    (hstale : code = "401" → m ≠ staleAuthMessage) :
    do_request cfg responses (fuel + 1) call_path (ParamsArg.ref r) s =
      (Outcome.clientError
        (if code = "401" then
          "Unrecoverable authentication error for " ++ call_path ++ ": " ++ code ++ " - " ++ m
        else
          "Unrecoverable error for " ++ call_path ++ ": " ++ code ++ " - " ++ m),
        { s with
          heap := s.heap ++ [requestDict cfg call_path s.token s.sequence (heapGet s.heap r)],
          cursor := s.cursor + 1,
          events := s.events ++
            [Event.httpGet call_path
              (requestDict cfg call_path s.token s.sequence (heapGet s.heap r))] }) := by
  rw [do_request_step cfg responses fuel call_path r s hg hlp htok]
  rw [sendAndClassify_no_put _ cfg responses call_path s.heap
    (withCreds s.token s.sequence (dictSet (heapGet s.heap r) "api_key" cfg.api_key))
    _ rfl (dictHasKey_requestDict_api_put cfg call_path s.token s.sequence _ hput)]
  simp only []
  rw [hresp]
  by_cases hc : code = "401"
  · subst hc
    rw [classify_401_other _ cfg call_path _ m _ (hstale rfl)]
    rw [if_pos rfl]
    rfl
  · rw [classify_err_other _ cfg call_path _ code m _ hc503 hc]
    rw [if_neg hc]
    rfl

theorem c6_unrecoverable_error_fails_first_attempt_witness :
    (¬ (0 > (cfgDemo 5).max_retry_count)) ∧
    pyStartsWith "lists" "auth/login" = false ∧
    pyFalsy (some "tok") = false ∧
    dictHasKey (heapGet [[("foo", "bar")]] 0) "api_put" = false ∧
    ((fun _ => Response.err "401" "Permission denied") : Nat → Response) 0
      = Response.err "401" "Permission denied" ∧
    do_request (cfgDemo 5) (fun _ => Response.err "401" "Permission denied") 1 "lists"
        (ParamsArg.ref 0) ⟨[[("foo", "bar")]], some "tok", 0, 0, none, 0, []⟩ =
      (Outcome.clientError
        (if ("401" : String) = "401" then
          "Unrecoverable authentication error for " ++ "lists" ++ ": " ++ "401" ++ " - "
            ++ "Permission denied"
        else
          "Unrecoverable error for " ++ "lists" ++ ": " ++ "401" ++ " - " ++ "Permission denied"),
        { (⟨[[("foo", "bar")]], some "tok", 0, 0, none, 0, []⟩ : ClientState) with
          heap := [[("foo", "bar")]] ++
            [requestDict (cfgDemo 5) "lists" (some "tok") 0 (heapGet [[("foo", "bar")]] 0)],
          cursor := 0 + 1,
          events := [] ++
            [Event.httpGet "lists"
              (requestDict (cfgDemo 5) "lists" (some "tok") 0 (heapGet [[("foo", "bar")]] 0))] }) :=
  ⟨by decide, by decide, by decide, by decide, rfl,
    c6_unrecoverable_error_fails_first_attempt (cfgDemo 5)
      (fun _ => Response.err "401" "Permission denied") 0 "lists" 0
      ⟨[[("foo", "bar")]], some "tok", 0, 0, none, 0, []⟩ "401" "Permission denied"
      (by decide) (by decide) (by decide) (by decide) rfl (by decide)
      (fun _ => by decide)⟩

/-- A successful login behaves as `postLoginState` describes and returns
the token/sequence pair (lines 262-288). -/
theorem login_ok (cfg : Config) (responses : Nat → Response) (fuel : Nat)
    (s : ClientState) (t : String) (sq : Int) (tg : Nat)
    (hg : ¬ s.retry_count > cfg.max_retry_count)
    (hresp : responses s.cursor = Response.ok ⟨t, sq, tg⟩) :
    login cfg responses (fuel + 2) s = (Except.ok (t, sq), postLoginState cfg s t sq) := by
  have hpl : dictHasKey (signParams cfg (loginPath cfg)
      (dictSet ([] : Dict) "api_key" cfg.api_key)) "api_put" = false := by
    rw [dictHasKey_signParams _ _ _ _ (by decide), dictHasKey_dictSet]
    rfl
  show loginVia (fun cp' pa s' => do_request cfg responses (fuel + 1) cp' pa s') cfg s = _
  rw [loginVia_eq]
  rw [do_request_step_login cfg responses fuel (loginPath cfg) s hg (loginPath_startsWith cfg)]
  rw [sendAndClassify_no_put _ cfg responses (loginPath cfg) s.heap
    (dictSet [] "api_key" cfg.api_key) _ rfl hpl]
  simp only []
  rw [hresp, classify_ok]
  simp only [loginFinish, postLoginState, loginDict]
  by_cases hh : s.handler.isSome
  · rw [if_pos hh, if_pos hh, if_pos hh]
  · rw [if_neg hh, if_neg hh, if_neg hh]
    simp

/-- Claim C5: after `login` succeeds with a response supplying token `t`
and sequence `sq`, the client stores `token = t` and `sequence = sq`
(visible in `postLoginState`), returns the pair `(t, sq)`, invokes
`set_credentials(t, sq)` on the configured auth handler when one is
configured (the `setCreds` event and handler update inside
`postLoginState`), and a subsequent non-login call's outgoing parameters
include `api_tok = t` and `api_seq = sq` (lines 277-288 and 149-157). -/
theorem c5_login_stores_returns_and_propagates (cfg : Config)
    (responses : Nat → Response) (fuel fuel2 : Nat) (s : ClientState)
    (t : String) (sq : Int) (tg : Nat) (cp : String) (r : Nat) (doc2 : Doc)
    (hg : ¬ s.retry_count > cfg.max_retry_count)
    (hresp : responses s.cursor = Response.ok ⟨t, sq, tg⟩)
    (hlp : pyStartsWith cp "auth/login" = false)
    (ht : t ≠ "")
    (hr : r < s.heap.length)
    (hput : dictHasKey (heapGet s.heap r) "api_put" = false)
    (hresp2 : responses (s.cursor + 1) = Response.ok doc2) :
    login cfg responses (fuel + 2) s = (Except.ok (t, sq), postLoginState cfg s t sq) ∧
    do_request cfg responses (fuel2 + 1) cp (ParamsArg.ref r) (postLoginState cfg s t sq) =
      (Outcome.ok doc2,
        { postLoginState cfg s t sq with
          heap := (postLoginState cfg s t sq).heap ++
            [requestDict cfg cp (some t) sq (heapGet s.heap r)],
          cursor := s.cursor + 2,
          events := (postLoginState cfg s t sq).events ++
            [Event.httpGet cp (requestDict cfg cp (some t) sq (heapGet s.heap r))] }) ∧
    dictGet (requestDict cfg cp (some t) sq (heapGet s.heap r)) "api_tok" = some t ∧
    dictGet (requestDict cfg cp (some t) sq (heapGet s.heap r)) "api_seq" = some (toString sq) := by
  refine ⟨login_ok cfg responses fuel s t sq tg hg hresp, ?_,
    dictGet_requestDict_api_tok cfg cp (some t) sq (heapGet s.heap r),
    dictGet_requestDict_api_seq cfg cp (some t) sq (heapGet s.heap r)⟩
  have hg2 : ¬ (postLoginState cfg s t sq).retry_count > cfg.max_retry_count := by
    show ¬ 0 > cfg.max_retry_count
    simp
  have htok2 : pyFalsy (postLoginState cfg s t sq).token = false := by
    show pyFalsy (some t) = false
    show (t == "") = false
    exact beq_eq_false_iff_ne.mpr ht
  have hget : heapGet (postLoginState cfg s t sq).heap r = heapGet s.heap r := by
    show heapGet (s.heap ++ [loginDict cfg]) r = heapGet s.heap r
    exact heapGet_append_left s.heap [loginDict cfg] r hr
  rw [do_request_step cfg responses fuel2 cp r _ hg2 hlp htok2]
  rw [show (postLoginState cfg s t sq).token = some t from rfl]
  rw [show (postLoginState cfg s t sq).sequence = sq from rfl]
  rw [hget]
  rw [sendAndClassify_no_put _ cfg responses cp (postLoginState cfg s t sq).heap
    (withCreds (some t) sq (dictSet (heapGet s.heap r) "api_key" cfg.api_key)) _ rfl
    (dictHasKey_requestDict_api_put cfg cp (some t) sq _ hput)]
  simp only []
  rw [show (postLoginState cfg s t sq).cursor = s.cursor + 1 from rfl]
  rw [hresp2, classify_ok]
  rfl

theorem c5_login_stores_returns_and_propagates_witness :
    (¬ (0 > (cfgDemo 5).max_retry_count)) ∧
    pyStartsWith "lists" "auth/login" = false ∧
    ("abc123" ≠ "") ∧
    ((0 : Nat) < ([[("foo", "bar")]] : List Dict).length) ∧
    dictHasKey (heapGet [[("foo", "bar")]] 0) "api_put" = false ∧
    (login (cfgDemo 5)
        (fun n => if n == 0 then Response.ok ⟨"abc123", 7, 0⟩ else Response.ok ⟨"B", 9, 1⟩) 2
        ⟨[[("foo", "bar")]], none, 0, 0, some ("old", 0), 0, []⟩ =
      (Except.ok ("abc123", 7),
        postLoginState (cfgDemo 5) ⟨[[("foo", "bar")]], none, 0, 0, some ("old", 0), 0, []⟩
          "abc123" 7) ∧
    do_request (cfgDemo 5)
        (fun n => if n == 0 then Response.ok ⟨"abc123", 7, 0⟩ else Response.ok ⟨"B", 9, 1⟩) 1
        "lists" (ParamsArg.ref 0)
        (postLoginState (cfgDemo 5) ⟨[[("foo", "bar")]], none, 0, 0, some ("old", 0), 0, []⟩
          "abc123" 7) =
      (Outcome.ok ⟨"B", 9, 1⟩,
        { postLoginState (cfgDemo 5) ⟨[[("foo", "bar")]], none, 0, 0, some ("old", 0), 0, []⟩
            "abc123" 7 with
          heap := (postLoginState (cfgDemo 5)
              ⟨[[("foo", "bar")]], none, 0, 0, some ("old", 0), 0, []⟩ "abc123" 7).heap ++
            [requestDict (cfgDemo 5) "lists" (some "abc123") 7 (heapGet [[("foo", "bar")]] 0)],
          cursor := 0 + 2,
          events := (postLoginState (cfgDemo 5)
              ⟨[[("foo", "bar")]], none, 0, 0, some ("old", 0), 0, []⟩ "abc123" 7).events ++
            [Event.httpGet "lists"
              (requestDict (cfgDemo 5) "lists" (some "abc123") 7
                (heapGet [[("foo", "bar")]] 0))] }) ∧
    dictGet (requestDict (cfgDemo 5) "lists" (some "abc123") 7 (heapGet [[("foo", "bar")]] 0))
        "api_tok" = some "abc123" ∧
    dictGet (requestDict (cfgDemo 5) "lists" (some "abc123") 7 (heapGet [[("foo", "bar")]] 0))
        "api_seq" = some (toString (7 : Int))) :=
  ⟨by decide, by decide, by decide, by decide, by decide,
    c5_login_stores_returns_and_propagates (cfgDemo 5)
      (fun n => if n == 0 then Response.ok ⟨"abc123", 7, 0⟩ else Response.ok ⟨"B", 9, 1⟩)
      0 0 ⟨[[("foo", "bar")]], none, 0, 0, some ("old", 0), 0, []⟩
      "abc123" 7 0 "lists" 0 ⟨"B", 9, 1⟩
      (by decide) rfl (by decide) (by decide) (by decide) (by decide) rfl⟩

/-- `loginVia` form of `login_ok`, as it appears inside `__do_request`'s
retry branches. -/
theorem loginVia_ok (cfg : Config) (responses : Nat → Response) (fuel : Nat)
    (s : ClientState) (t : String) (sq : Int) (tg : Nat)
    (hg : ¬ s.retry_count > cfg.max_retry_count)
    (hresp : responses s.cursor = Response.ok ⟨t, sq, tg⟩) :
    loginVia (fun cp' pa s' => do_request cfg responses (fuel + 1) cp' pa s') cfg s
      = (Except.ok (t, sq), postLoginState cfg s t sq) :=
  login_ok cfg responses fuel s t sq tg hg hresp

/-- Claim C3: a call whose first response is the stale-token `401` and
whose re-login response is a success sleeps the jittered backoff
(`sleepRand` with the current retry count), performs exactly one
re-authentication request (the single `httpGet` on the login path in the
event trace), and re-issues the original request with outgoing parameters
carrying the token and sequence newly obtained by that login
(`requestDict cfg cp (some t') sq' ...`), not the stale ones
(client.py lines 198-212 and 149-157). -/
theorem c3_stale_token_relogin_uses_fresh_credentials (cfg : Config)
    (responses : Nat → Response) (fuel : Nat) (cp : String) (r : Nat)
    (s : ClientState) (t' : String) (sq' : Int) (tg : Nat) (doc2 : Doc)
    (hlp : pyStartsWith cp "auth/login" = false)
    (htok : pyFalsy s.token = false)
    (hmax : s.retry_count + 1 ≤ cfg.max_retry_count)
    (hh : s.handler = none)
    (hput : dictHasKey (heapGet s.heap r) "api_put" = false)
    (hresp0 : responses s.cursor = Response.err "401" staleAuthMessage)
    (hresp1 : responses (s.cursor + 1) = Response.ok ⟨t', sq', tg⟩)
    (ht' : t' ≠ "")
    (hresp2 : responses (s.cursor + 2) = Response.ok doc2) :
    do_request cfg responses (fuel + 2) cp (ParamsArg.ref r) s =
      (Outcome.ok doc2,
        { s with
          heap := ((s.heap ++ [requestDict cfg cp s.token s.sequence (heapGet s.heap r)])
              ++ [loginDict cfg])
            ++ [requestDict cfg cp (some t') sq'
                  (requestDict cfg cp s.token s.sequence (heapGet s.heap r))],
          token := some t',
          sequence := sq',
          retry_count := 0,
          handler := none,
          cursor := s.cursor + 3,
          events := (((s.events
              ++ [Event.httpGet cp (requestDict cfg cp s.token s.sequence (heapGet s.heap r))])
              ++ [Event.sleepRand s.retry_count])
              ++ [Event.httpGet (loginPath cfg) (loginDict cfg)])
            ++ [Event.httpGet cp
                  (requestDict cfg cp (some t') sq'
                    (requestDict cfg cp s.token s.sequence (heapGet s.heap r)))] }) := by
  have hg : ¬ s.retry_count > cfg.max_retry_count := by omega
  rw [do_request_step cfg responses (fuel + 1) cp r s hg hlp htok]
  rw [sendAndClassify_no_put _ cfg responses cp s.heap
    (withCreds s.token s.sequence (dictSet (heapGet s.heap r) "api_key" cfg.api_key)) _ rfl
    (dictHasKey_requestDict_api_put cfg cp s.token s.sequence _ hput)]
  rw [show signParams cfg cp
      (withCreds s.token s.sequence (dictSet (heapGet s.heap r) "api_key" cfg.api_key))
    = requestDict cfg cp s.token s.sequence (heapGet s.heap r) from rfl]
  simp only []
  rw [hresp0]
  rw [classify_401_stale]
  simp only []
  rw [loginVia_ok cfg responses fuel _ t' sq' tg (by show ¬ s.retry_count + 1 > _; omega)
    (by show responses (s.cursor + 1) = _; exact hresp1)]
  simp only []
  have htok3 : pyFalsy (some t') = false := by
    show (t' == "") = false
    exact beq_eq_false_iff_ne.mpr ht'
  rw [do_request_step cfg responses fuel cp s.heap.length _ (by show ¬ 0 > _; omega) hlp htok3]
  rw [show (postLoginState cfg
      { heap := s.heap ++ [requestDict cfg cp s.token s.sequence (heapGet s.heap r)],
        token := s.token, sequence := s.sequence, retry_count := s.retry_count + 1,
        handler := s.handler, cursor := s.cursor + 1,
        events := (s.events
            ++ [Event.httpGet cp (requestDict cfg cp s.token s.sequence (heapGet s.heap r))])
          ++ [Event.sleepRand s.retry_count] } t' sq').token = some t' from rfl]
  rw [show (postLoginState cfg
      { heap := s.heap ++ [requestDict cfg cp s.token s.sequence (heapGet s.heap r)],
        token := s.token, sequence := s.sequence, retry_count := s.retry_count + 1,
        handler := s.handler, cursor := s.cursor + 1,
        events := (s.events
            ++ [Event.httpGet cp (requestDict cfg cp s.token s.sequence (heapGet s.heap r))])
          ++ [Event.sleepRand s.retry_count] } t' sq').sequence = sq' from rfl]
  have hgetD1 : heapGet (postLoginState cfg
      { heap := s.heap ++ [requestDict cfg cp s.token s.sequence (heapGet s.heap r)],
        token := s.token, sequence := s.sequence, retry_count := s.retry_count + 1,
        handler := s.handler, cursor := s.cursor + 1,
        events := (s.events
            ++ [Event.httpGet cp (requestDict cfg cp s.token s.sequence (heapGet s.heap r))])
          ++ [Event.sleepRand s.retry_count] } t' sq').heap s.heap.length
      = requestDict cfg cp s.token s.sequence (heapGet s.heap r) := by
    show heapGet ((s.heap ++ [requestDict cfg cp s.token s.sequence (heapGet s.heap r)])
      ++ [loginDict cfg]) s.heap.length = _
    rw [heapGet_append_left _ _ _ (by simp), heapGet_concat]
  rw [hgetD1]
  rw [sendAndClassify_no_put _ cfg responses cp _
    (withCreds (some t') sq' (dictSet (requestDict cfg cp s.token s.sequence (heapGet s.heap r))
      "api_key" cfg.api_key)) _ rfl
    (dictHasKey_requestDict_api_put cfg cp (some t') sq' _
      (dictHasKey_requestDict_api_put cfg cp s.token s.sequence _ hput))]
  rw [show signParams cfg cp
      (withCreds (some t') sq' (dictSet (requestDict cfg cp s.token s.sequence (heapGet s.heap r))
        "api_key" cfg.api_key))
    = requestDict cfg cp (some t') sq'
        (requestDict cfg cp s.token s.sequence (heapGet s.heap r)) from rfl]
  simp only []
  rw [show (postLoginState cfg
      { heap := s.heap ++ [requestDict cfg cp s.token s.sequence (heapGet s.heap r)],
        token := s.token, sequence := s.sequence, retry_count := s.retry_count + 1,
        handler := s.handler, cursor := s.cursor + 1,
        events := (s.events
            ++ [Event.httpGet cp (requestDict cfg cp s.token s.sequence (heapGet s.heap r))])
          ++ [Event.sleepRand s.retry_count] } t' sq').cursor = s.cursor + 2 from rfl]
  rw [hresp2, classify_ok]
  unfold postLoginState
  rw [hh]
  simp

theorem c3_stale_token_relogin_uses_fresh_credentials_witness :
    pyStartsWith "lists" "auth/login" = false ∧
    pyFalsy (some "tok0") = false ∧
    ((0 : Nat) + 1 ≤ (cfgDemo 5).max_retry_count) ∧
    dictHasKey (heapGet [[("foo", "bar")]] 0) "api_put" = false ∧
    ("fresh" ≠ "") ∧
    do_request (cfgDemo 5)
        (fun n => if n == 0 then Response.err "401" staleAuthMessage
                  else if n == 1 then Response.ok ⟨"fresh", 9, 0⟩
                  else Response.ok ⟨"D", 1, 2⟩) 2
        "lists" (ParamsArg.ref 0) ⟨[[("foo", "bar")]], some "tok0", 3, 0, none, 0, []⟩ =
      (Outcome.ok ⟨"D", 1, 2⟩,
        { (⟨[[("foo", "bar")]], some "tok0", 3, 0, none, 0, []⟩ : ClientState) with
          heap := (([[("foo", "bar")]]
              ++ [requestDict (cfgDemo 5) "lists" (some "tok0") 3
                    (heapGet [[("foo", "bar")]] 0)])
              ++ [loginDict (cfgDemo 5)])
            ++ [requestDict (cfgDemo 5) "lists" (some "fresh") 9
                  (requestDict (cfgDemo 5) "lists" (some "tok0") 3
                    (heapGet [[("foo", "bar")]] 0))],
          token := some "fresh",
          sequence := 9,
          retry_count := 0,
          handler := none,
          cursor := 0 + 3,
          events := ((([]
              ++ [Event.httpGet "lists"
                    (requestDict (cfgDemo 5) "lists" (some "tok0") 3
                      (heapGet [[("foo", "bar")]] 0))])
              ++ [Event.sleepRand 0])
              ++ [Event.httpGet (loginPath (cfgDemo 5)) (loginDict (cfgDemo 5))])
            ++ [Event.httpGet "lists"
                  (requestDict (cfgDemo 5) "lists" (some "fresh") 9
                    (requestDict (cfgDemo 5) "lists" (some "tok0") 3
                      (heapGet [[("foo", "bar")]] 0)))] }) :=
  ⟨by decide, by decide, by decide, by decide, by decide,
    c3_stale_token_relogin_uses_fresh_credentials (cfgDemo 5)
      (fun n => if n == 0 then Response.err "401" staleAuthMessage
                else if n == 1 then Response.ok ⟨"fresh", 9, 0⟩
                else Response.ok ⟨"D", 1, 2⟩) 0 "lists" 0
      ⟨[[("foo", "bar")]], some "tok0", 3, 0, none, 0, []⟩ "fresh" 9 0 ⟨"D", 1, 2⟩
      (by decide) (by decide) (by decide) rfl (by decide) rfl rfl (by decide) rfl⟩

set_option maxRecDepth 8000 in
/-- Claim C2 (code bug, failing input): a PUT call (`api_put` body
`"<contact/>"`, caller parameter `foo=bar`) answered first with the
rate-limit error `503` and then with a success.  The counter is
incremented and the backoff sleep recorded (`sleepRand 1`) as the claim
says, but the re-issued request is **not** the same logical call: line 166
deleted `api_put` from `params` and line 176 rebound `params` to the
`urlparse` params component (the empty string, so `dict(params)` of the
recursive call is `{}`), hence the retry goes out as a body-less GET whose
parameters no longer contain the caller's `foo=bar` — only the re-injected
`api_key`/`api_tok`/`api_seq`/`api_sig`. -/
theorem c2_put_retry_loses_body_and_parameters :
    (do_request (cfgDemo 5) streamPut 5 "contact" (ParamsArg.ref 0) stPut).2.events =
      [Event.httpPut "contact"
        [("foo", "bar"), ("api_key", "KEY"), ("api_tok", "tok0"), ("api_seq", "3"),
         ("api_sig", "SECRETcontactapi_keyKEYapi_put<contact/>api_seq3api_toktok0foobar")]
        "<contact/>",
       Event.sleepRand 1,
       Event.httpGet "contact"
        [("api_key", "KEY"), ("api_tok", "tok0"), ("api_seq", "3"),
         ("api_sig", "SECRETcontactapi_keyKEYapi_seq3api_toktok0")]] ∧
    dictGet [("api_key", "KEY"), ("api_tok", "tok0"), ("api_seq", "3"),
        ("api_sig", "SECRETcontactapi_keyKEYapi_seq3api_toktok0")] "foo" = none ∧
    dictGet (heapGet stPut.heap 0) "foo" = some "bar" ∧
    dictGet (heapGet stPut.heap 0) "api_put" = some "<contact/>" ∧
    (do_request (cfgDemo 5) streamPut 5 "contact" (ParamsArg.ref 0) stPut).1 =
      Outcome.ok ⟨"tok", 1, 7⟩ := by
  exact ⟨by decide, by decide, by decide, by decide, by decide⟩

theorem httpCount_append (e1 e2 : List Event) :
    httpCount (e1 ++ e2) = httpCount e1 + httpCount e2 :=
  List.countP_append _ _ _

/-- Exhaustion run: from a logged-in state whose retry counter is `j`
short of tripping the guard, an all-`503` environment drives `j` requests
(each incrementing the counter) and then the guard raises, with the
counter left at `max_retry_count + 1` and the credentials untouched. -/
theorem run503_exhausts : ∀ (j : Nat) (cfg : Config) (r : Nat) (s : ClientState),
    s.retry_count + j = cfg.max_retry_count + 1 →
    pyFalsy s.token = false →
    dictHasKey (heapGet s.heap r) "api_put" = false →
    ∃ s' : ClientState,
      do_request cfg stream503 (j + 1) "lists" (ParamsArg.ref r) s =
        (Outcome.excessiveRetries
          ("Exceeded maximum retry count (" ++ toString cfg.max_retry_count ++ ")"), s') ∧
      s'.retry_count = cfg.max_retry_count + 1 ∧
      s'.token = s.token ∧
      s'.sequence = s.sequence ∧
      httpCount s'.events = httpCount s.events + j := by
  intro j
  induction j with
  | zero =>
    intro cfg r s hj htok hput
    refine ⟨s, ?_, by omega, rfl, rfl, by omega⟩
    exact do_request_guard cfg stream503 0 "lists" (ParamsArg.ref r) s (by omega)
  | succ j ih =>
    intro cfg r s hj htok hput
    have hg : ¬ s.retry_count > cfg.max_retry_count := by omega
    rw [do_request_step cfg stream503 (j + 1) "lists" r s hg (by decide) htok]
    rw [sendAndClassify_no_put _ cfg stream503 "lists" s.heap
      (withCreds s.token s.sequence (dictSet (heapGet s.heap r) "api_key" cfg.api_key)) _ rfl
      (dictHasKey_requestDict_api_put cfg "lists" s.token s.sequence _ hput)]
    rw [show stream503 ({ s with
        heap := s.heap ++ [withCreds s.token s.sequence
          (dictSet (heapGet s.heap r) "api_key" cfg.api_key)] } : ClientState).cursor
      = Response.err "503" "Number of requests exceeded" from rfl]
    rw [classify_503]
    simp only []
    obtain ⟨s', h1, h2, h3, h4, h5⟩ := ih cfg s.heap.length
      ({ s with
        heap := s.heap ++ [signParams cfg "lists"
          (withCreds s.token s.sequence (dictSet (heapGet s.heap r) "api_key" cfg.api_key))],
        cursor := s.cursor + 1,
        events := (s.events ++ [Event.httpGet "lists" (signParams cfg "lists"
          (withCreds s.token s.sequence (dictSet (heapGet s.heap r) "api_key" cfg.api_key)))])
          ++ [Event.sleepRand (s.retry_count + 1)],
        retry_count := s.retry_count + 1 })
      (by simp only []; omega) (by simp only []; exact htok)
      (by
        simp only [heapGet_concat]
        exact dictHasKey_requestDict_api_put cfg "lists" s.token s.sequence _ hput)
    refine ⟨s', ?_, h2, h3, h4, ?_⟩
    · rw [← h1]
    · rw [h5]
      simp only [httpCount_append]
      rw [show httpCount [Event.httpGet "lists" (signParams cfg "lists"
        (withCreds s.token s.sequence (dictSet (heapGet s.heap r) "api_key" cfg.api_key)))]
        = 1 from rfl]
      rw [show httpCount [Event.sleepRand (s.retry_count + 1)] = 0 from rfl]
      omega

/-- Claim C10: a call that ends in `ExcessiveRetriesException` does not
reset the retry counter — it keeps every increment accrued during the call
(`max_retry_count + 1` increments from a fresh counter, one per issued
request, since zero-reset happens only on a successful response at line
217) — and consequently a later, independent call on the same client
instance starts with the counter above the ceiling and fails with
`ExcessiveRetriesException` without issuing any HTTP request (the state,
including the event log, is returned unchanged). -/
theorem c10_exception_keeps_retry_counter (cfg : Config) (r : Nat) (s : ClientState)
    (responses2 : Nat → Response) (fuel2 : Nat) (cp2 : String) (parg2 : ParamsArg)
    (hr0 : s.retry_count = 0)
    (htok : pyFalsy s.token = false)
    (hput : dictHasKey (heapGet s.heap r) "api_put" = false) :
    (do_request cfg stream503 (cfg.max_retry_count + 2) "lists" (ParamsArg.ref r) s).1 =
      Outcome.excessiveRetries
        ("Exceeded maximum retry count (" ++ toString cfg.max_retry_count ++ ")") ∧
    (do_request cfg stream503 (cfg.max_retry_count + 2) "lists" (ParamsArg.ref r) s).2.retry_count
      = cfg.max_retry_count + 1 ∧
    httpCount (do_request cfg stream503 (cfg.max_retry_count + 2) "lists"
        (ParamsArg.ref r) s).2.events
      = httpCount s.events + (cfg.max_retry_count + 1) ∧
    do_request cfg responses2 (fuel2 + 1) cp2 parg2
        (do_request cfg stream503 (cfg.max_retry_count + 2) "lists" (ParamsArg.ref r) s).2 =
      (Outcome.excessiveRetries
        ("Exceeded maximum retry count (" ++ toString cfg.max_retry_count ++ ")"),
        (do_request cfg stream503 (cfg.max_retry_count + 2) "lists" (ParamsArg.ref r) s).2) := by
  obtain ⟨s', h1, h2, h3, h4, h5⟩ :=
    run503_exhausts (cfg.max_retry_count + 1) cfg r s (by omega) htok hput
  rw [show cfg.max_retry_count + 2 = (cfg.max_retry_count + 1) + 1 from rfl, h1]
  exact ⟨rfl, h2, by rw [h5], do_request_guard cfg responses2 fuel2 cp2 parg2 s' (by omega)⟩

theorem c10_exception_keeps_retry_counter_witness :
    ((0 : Nat) = 0) ∧
    pyFalsy (some "tok") = false ∧
    dictHasKey (heapGet [[("foo", "bar")]] 0) "api_put" = false ∧
    ((do_request (cfgDemo 2) stream503 ((cfgDemo 2).max_retry_count + 2) "lists"
        (ParamsArg.ref 0) ⟨[[("foo", "bar")]], some "tok", 5, 0, none, 0, []⟩).1 =
      Outcome.excessiveRetries
        ("Exceeded maximum retry count (" ++ toString (cfgDemo 2).max_retry_count ++ ")") ∧
    (do_request (cfgDemo 2) stream503 ((cfgDemo 2).max_retry_count + 2) "lists"
        (ParamsArg.ref 0) ⟨[[("foo", "bar")]], some "tok", 5, 0, none, 0, []⟩).2.retry_count
      = (cfgDemo 2).max_retry_count + 1 ∧
    httpCount (do_request (cfgDemo 2) stream503 ((cfgDemo 2).max_retry_count + 2) "lists"
        (ParamsArg.ref 0) ⟨[[("foo", "bar")]], some "tok", 5, 0, none, 0, []⟩).2.events
      = httpCount ([] : List Event) + ((cfgDemo 2).max_retry_count + 1) ∧
    do_request (cfgDemo 2) stream503 (3 + 1) "contacts" ParamsArg.empty
        (do_request (cfgDemo 2) stream503 ((cfgDemo 2).max_retry_count + 2) "lists"
          (ParamsArg.ref 0) ⟨[[("foo", "bar")]], some "tok", 5, 0, none, 0, []⟩).2 =
      (Outcome.excessiveRetries
        ("Exceeded maximum retry count (" ++ toString (cfgDemo 2).max_retry_count ++ ")"),
        (do_request (cfgDemo 2) stream503 ((cfgDemo 2).max_retry_count + 2) "lists"
          (ParamsArg.ref 0) ⟨[[("foo", "bar")]], some "tok", 5, 0, none, 0, []⟩).2)) :=
  ⟨rfl, by decide, by decide,
    c10_exception_keeps_retry_counter (cfgDemo 2) 0
      ⟨[[("foo", "bar")]], some "tok", 5, 0, none, 0, []⟩ stream503 3 "contacts"
      ParamsArg.empty rfl (by decide) (by decide)⟩

/-- The stale-token/re-login cycle never terminates: from any logged-in
state with retry counter 0 and an even cursor, the run in the
`streamStaleLoop` environment consumes all its fuel, no matter how much
fuel it is given.  Each successful re-login resets the retry counter to 0
(line 217), so the guard of line 141 never trips. -/
theorem staleLoop_spins : ∀ (fuel : Nat) (h : List Dict) (r : Nat) (sq : Int)
    (c : Nat) (evs : List Event),
    c % 2 = 0 →
    dictHasKey (heapGet h r) "api_put" = false →
    (do_request (cfgDemo 2) streamStaleLoop fuel "lists" (ParamsArg.ref r)
      ⟨h, some "tok", sq, 0, none, c, evs⟩).1 = Outcome.outOfFuel := by
  intro fuel
  induction fuel with
  | zero =>
    intro h r sq c evs hc hput
    rfl
  | succ fuel ih =>
    intro h r sq c evs hc hput
    rw [do_request_step (cfgDemo 2) streamStaleLoop fuel "lists" r
      ⟨h, some "tok", sq, 0, none, c, evs⟩ (by show ¬ 0 > 2; omega) (by decide)
      (by show pyFalsy (some "tok") = false; decide)]
    rw [sendAndClassify_no_put _ (cfgDemo 2) streamStaleLoop "lists" h
      (withCreds (some "tok") sq (dictSet (heapGet h r) "api_key" (cfgDemo 2).api_key)) _ rfl
      (dictHasKey_requestDict_api_put (cfgDemo 2) "lists" (some "tok") sq _ hput)]
    simp only []
    rw [show streamStaleLoop c = Response.err "401" staleAuthMessage from by
      unfold streamStaleLoop
      rw [show (c % 2 == 0) = true from by rw [hc]; rfl]
      rfl]
    rw [classify_401_stale]
    simp only []
    cases fuel with
    | zero =>
      rw [loginVia_eq]
      rw [do_request_zero]
    | succ m =>
      rw [loginVia_ok (cfgDemo 2) streamStaleLoop m _ "tok" 1 0
        (by show ¬ 0 + 1 > 2; omega)
        (by
          show streamStaleLoop (c + 1) = _
          unfold streamStaleLoop
          rw [show ((c + 1) % 2 == 0) = false from by
            rw [show (c + 1) % 2 = 1 from by omega]
            rfl]
          rfl)]
      simp only []
      exact ih ((h ++ [signParams (cfgDemo 2) "lists"
          (withCreds (some "tok") sq (dictSet (heapGet h r) "api_key" (cfgDemo 2).api_key))])
          ++ [loginDict (cfgDemo 2)])
        h.length 1 (c + 2) _ (by omega)
        (by
          rw [heapGet_append_left _ _ _ (by simp), heapGet_concat]
          exact dictHasKey_requestDict_api_put (cfgDemo 2) "lists" (some "tok") sq _ hput)

/-- Claim C1 (code bug, failing input): in the environment where every
application request is answered with the stale-token `401` and every
re-login succeeds (`streamStaleLoop`), a logged-in client with retry
ceiling 2 loops forever: for every fuel bound the run is cut off
(`outOfFuel`) rather than reaching the claimed terminal
`ExcessiveRetriesException` — because each successful login response
resets the retry counter to 0 (line 217) before the guard of line 141 can
ever trip — and the number of HTTP calls grows without bound (39 calls
already at fuel 20, far above the ceiling-implied bound of 3). -/
theorem c1_stale_relogin_loop_never_terminates :
    (∀ fuel : Nat,
      (do_request (cfgDemo 2) streamStaleLoop fuel "lists" (ParamsArg.ref 0) stLoop).1
        = Outcome.outOfFuel) ∧
    httpCount (do_request (cfgDemo 2) streamStaleLoop 20 "lists"
        (ParamsArg.ref 0) stLoop).2.events = 39 ∧
    (cfgDemo 2).max_retry_count + 1 < 39 :=
  ⟨fun fuel => staleLoop_spins fuel [[("foo", "bar")]] 0 0 0 [] (by decide) (by decide),
    by decide, by decide⟩

/-! ### The heap frame property of the pipeline -/

theorem heapExtends_refl (h : List Dict) : heapExtends h h :=
  ⟨Nat.le_refl _, fun _ _ => rfl⟩

theorem heapExtends_trans {h1 h2 h3 : List Dict}
    (a : heapExtends h1 h2) (b : heapExtends h2 h3) : heapExtends h1 h3 :=
  ⟨Nat.le_trans a.1 b.1, fun n hn => (b.2 n (Nat.le_trans hn a.1)).trans (a.2 n hn)⟩

theorem loginFinish_heap (doc : Doc) (s : ClientState) :
    (loginFinish doc s).2.heap = s.heap := by
  unfold loginFinish
  simp only []
  by_cases hh : s.handler.isSome
  · rw [if_pos hh]
  · rw [if_neg hh]

theorem loginVia_frame (doReq : String → ParamsArg → ClientState → Outcome × ClientState)
    (H : heapPreserving doReq) (cfg : Config) (s : ClientState) :
    heapExtends s.heap (loginVia doReq cfg s).2.heap := by
  unfold loginVia
  cases hq : doReq (loginPath cfg) ParamsArg.empty s with
  | mk o s' =>
    have he : heapExtends s.heap s'.heap := by
      have := H (loginPath cfg) ParamsArg.empty s
      rw [hq] at this
      exact this
    cases o with
    | ok doc =>
      simp only []
      rw [loginFinish_heap doc s']
      exact he
    | excessiveRetries m => exact he
    | clientError m => exact he
    | pyError m => exact he
    | outOfFuel => exact he

theorem classify_frame (doReq : String → ParamsArg → ClientState → Outcome × ClientState)
    (H : heapPreserving doReq) (cfg : Config) (cp : String) (pa : ParamsArg)
    (resp : Response) (st : ClientState) :
    heapExtends st.heap (classify doReq cfg cp pa resp st).2.heap := by
  cases resp with
  | ok doc => exact heapExtends_refl st.heap
  | err code msg =>
    rw [classify_err]
    by_cases h503 : (code == "503") = true
    · rw [if_pos h503]
      exact H cp pa
        { st with retry_count := st.retry_count + 1,
                  events := st.events ++ [Event.sleepRand (st.retry_count + 1)] }
    · rw [if_neg h503]
      by_cases h401 : (code == "401") = true
      · rw [if_pos h401]
        by_cases hst : (msg != staleAuthMessage) = true
        · rw [if_pos hst]
          exact heapExtends_refl st.heap
        · rw [if_neg hst]
          cases hlv : loginVia doReq cfg
              { st with events := st.events ++ [Event.sleepRand st.retry_count],
                        retry_count := st.retry_count + 1 } with
          | mk e s' =>
            have he : heapExtends st.heap s'.heap := by
              have := loginVia_frame doReq H cfg
                { st with events := st.events ++ [Event.sleepRand st.retry_count],
                          retry_count := st.retry_count + 1 }
              rw [hlv] at this
              exact this
            cases e with
            | error o => exact he
            | ok v =>
              simp only []
              exact heapExtends_trans he (H cp pa s')
      · rw [if_neg h401]
        exact heapExtends_refl st.heap

theorem sendAndClassify_frame (doReq : String → ParamsArg → ClientState → Outcome × ClientState)
    (H : heapPreserving doReq) (cfg : Config) (responses : Nat → Response)
    (cp : String) (p : Nat) (st : ClientState) :
    st.heap.length ≤ (sendAndClassify doReq cfg responses cp p st).2.heap.length ∧
    ∀ n, n ≤ p → n ≤ st.heap.length →
      (sendAndClassify doReq cfg responses cp p st).2.heap.take n = st.heap.take n := by
  unfold sendAndClassify
  simp only []
  cases ha : dictGet (heapGet (hWrite st.heap p (signParams cfg cp (heapGet st.heap p))) p)
      "api_put" with
  | none =>
    have hc := classify_frame doReq H cfg cp (ParamsArg.ref p)
      (responses st.cursor)
      { st with heap := hWrite st.heap p (signParams cfg cp (heapGet st.heap p)),
                cursor := st.cursor + 1,
                events := st.events ++ [Event.httpGet cp
                  (heapGet (hWrite st.heap p (signParams cfg cp (heapGet st.heap p))) p)] }
    constructor
    · have h1 := hc.1
      simp only [hWrite, List.length_set] at h1
      calc st.heap.length
          = (hWrite st.heap p (signParams cfg cp (heapGet st.heap p))).length := by
            simp [hWrite]
        _ ≤ _ := hc.1
    · intro n hnp hnl
      have h2 := hc.2 n (by simp only [hWrite, List.length_set]; exact hnl)
      rw [h2]
      exact take_hWrite_of_le st.heap p _ n hnp
  | some body =>
    have hc := classify_frame doReq H cfg cp
      (ParamsArg.raw (pyUrlparseParams (apiUrlBase ++ cp ++ "?" ++ pyUrlencode
        (heapGet (hWrite (hWrite st.heap p (signParams cfg cp (heapGet st.heap p))) p
          (dictDel (heapGet (hWrite st.heap p (signParams cfg cp (heapGet st.heap p))) p)
            "api_put")) p))))
      (responses st.cursor)
      { st with heap := hWrite (hWrite st.heap p (signParams cfg cp (heapGet st.heap p))) p
                  (dictDel (heapGet (hWrite st.heap p (signParams cfg cp (heapGet st.heap p))) p)
                    "api_put"),
                cursor := st.cursor + 1,
                events := st.events ++ [Event.httpPut cp
                  (heapGet (hWrite (hWrite st.heap p (signParams cfg cp (heapGet st.heap p))) p
                    (dictDel (heapGet (hWrite st.heap p
                      (signParams cfg cp (heapGet st.heap p))) p) "api_put")) p) body] }
    constructor
    · calc st.heap.length
          = (hWrite (hWrite st.heap p (signParams cfg cp (heapGet st.heap p))) p
              (dictDel (heapGet (hWrite st.heap p (signParams cfg cp (heapGet st.heap p))) p)
                "api_put")).length := by
            simp [hWrite]
        _ ≤ _ := hc.1
    · intro n hnp hnl
      have h2 := hc.2 n (by simp only [hWrite, List.length_set]; exact hnl)
      rw [h2]
      rw [take_hWrite_of_le _ p _ n hnp]
      exact take_hWrite_of_le st.heap p _ n hnp

/-- The pipeline never modifies a pre-existing dictionary object: every
run of `__do_request` only appends fresh dictionaries to the heap and
writes those (`params = dict(parameters)` at line 144 copies before any
mutation). -/
theorem do_request_frame (cfg : Config) (responses : Nat → Response) :
    ∀ fuel : Nat, heapPreserving (do_request cfg responses fuel) := by
  intro fuel
  induction fuel with
  | zero =>
    intro cp pa s
    exact heapExtends_refl s.heap
  | succ fuel ih =>
    intro cp pa s
    rw [do_request_succ cfg responses fuel cp pa s]
    unfold do_requestF
    by_cases hg : s.retry_count > cfg.max_retry_count
    · rw [if_pos hg]
      exact heapExtends_refl s.heap
    · rw [if_neg hg]
      cases hd : pyDict pa s.heap with
      | none =>
        simp only []
        exact heapExtends_refl s.heap
      | some d0 =>
        simp only [hWrite_concat, heapGet_concat]
        have he0 : heapExtends s.heap (s.heap ++ [dictSet d0 "api_key" cfg.api_key]) :=
          ⟨by simp, fun n hn => List.take_append_of_le_length hn⟩
        by_cases hlp : pyStartsWith cp "auth/login" = true
        · rw [if_pos hlp]
          obtain ⟨hl, ht⟩ := sendAndClassify_frame _ ih cfg responses cp s.heap.length
            { s with heap := s.heap ++ [dictSet d0 "api_key" cfg.api_key] }
          refine ⟨le_trans (by simp) hl, ?_⟩
          intro n hn
          rw [ht n hn (le_trans hn (by simp))]
          exact List.take_append_of_le_length hn
        · rw [if_neg hlp]
          by_cases hf : pyFalsy s.token = true
          · rw [if_pos (by exact hf)]
            cases hlv : loginVia (do_request cfg responses fuel) cfg
                { s with heap := s.heap ++ [dictSet d0 "api_key" cfg.api_key],
                         retry_count := s.retry_count + 1 } with
            | mk e s' =>
              have he : heapExtends (s.heap ++ [dictSet d0 "api_key" cfg.api_key]) s'.heap := by
                have hx := loginVia_frame _ ih cfg
                  { s with heap := s.heap ++ [dictSet d0 "api_key" cfg.api_key],
                           retry_count := s.retry_count + 1 }
                rw [hlv] at hx
                exact hx
              have hss : heapExtends s.heap s'.heap := heapExtends_trans he0 he
              cases e with
              | error o =>
                simp only []
                exact hss
              | ok v =>
                simp only []
                obtain ⟨hl, ht⟩ := sendAndClassify_frame _ ih cfg responses cp s.heap.length
                  ⟨hWrite s'.heap s.heap.length
                      (withCreds s'.token s'.sequence (heapGet s'.heap s.heap.length)),
                    s'.token, s'.sequence, s'.retry_count, s'.handler, s'.cursor, s'.events⟩
                have l2 : (hWrite s'.heap s.heap.length
                    (withCreds s'.token s'.sequence (heapGet s'.heap s.heap.length))).length
                    = s'.heap.length := by
                  simp [hWrite]
                refine ⟨?_, ?_⟩
                · exact le_trans hss.1 (le_trans (le_of_eq l2.symm) hl)
                · intro n hn
                  rw [ht n hn (le_trans (le_trans hn hss.1) (le_of_eq l2.symm))]
                  rw [take_hWrite_of_le s'.heap s.heap.length _ n hn]
                  exact hss.2 n hn
          · rw [if_neg (by exact hf)]
            obtain ⟨hl, ht⟩ := sendAndClassify_frame _ ih cfg responses cp s.heap.length
              { s with heap := s.heap ++
                  [withCreds s.token s.sequence (dictSet d0 "api_key" cfg.api_key)] }
            refine ⟨le_trans (by simp) hl, ?_⟩
            intro n hn
            rw [ht n hn (le_trans hn (by simp))]
            exact List.take_append_of_le_length hn

/-- Claim C9: the parameter mapping supplied by the caller is left
unchanged when the call returns or raises — the pipeline copies it
(`params = dict(parameters)`, line 144) and every subsequent mutation
(`update`, `del api_sig` inside `__calc_signature`, `del api_put`) acts
only on internal copies, so the caller's dictionary object holds exactly
its old entries afterwards. -/
theorem c9_caller_parameters_unchanged (cfg : Config) (responses : Nat → Response)
    (fuel : Nat) (call_path : String) (r : Nat) (s : ClientState)
    (hr : r < s.heap.length) :
    heapGet (do_request cfg responses fuel call_path (ParamsArg.ref r) s).2.heap r
      = heapGet s.heap r := by
  obtain ⟨hl, ht⟩ := do_request_frame cfg responses fuel call_path (ParamsArg.ref r) s
  unfold heapGet
  exact getD_eq_of_take_eq _ _ s.heap.length r hr (ht s.heap.length (Nat.le_refl _))

theorem c9_caller_parameters_unchanged_witness :
    ((0 : Nat) < ([[("foo", "bar"), ("api_put", "<contact/>")]] : List Dict).length) ∧
    heapGet (do_request (cfgDemo 5) streamPut 5 "contact" (ParamsArg.ref 0)
        ⟨[[("foo", "bar"), ("api_put", "<contact/>")]], some "tok0", 3, 0, none, 0, []⟩).2.heap 0
      = heapGet [[("foo", "bar"), ("api_put", "<contact/>")]] 0 :=
  ⟨by decide,
    c9_caller_parameters_unchanged (cfgDemo 5) streamPut 5 "contact" 0
      ⟨[[("foo", "bar"), ("api_put", "<contact/>")]], some "tok0", 3, 0, none, 0, []⟩
      (by decide)⟩

end IContact
